import Mathlib

/- Shallow embedding of the two HeartMuLa front-end shells:
   heartmula.py (the desktop shell, PySide6) and heartmula_gradio.py (the
   browser shell, Gradio).  Filesystem paths are modeled as strings joined
   with "/" (the POSIX rendering of pathlib.Path values); the filesystem
   itself is modeled as the finite list of existing paths.  Python str
   values are Lean String values; str.lower is modeled on the ASCII range
   (Char.toLower), which agrees with CPython there. -/

namespace Heartlib

/- Python whitespace characters recognized by str.strip (ASCII range). -/
def isPyWs (c : Char) : Bool :=
  c == ' ' || c == '\t' || c == '\n' || c == '\r' || c == '\x0b' || c == '\x0c'

/- Python str.strip on the character list of a string: remove leading and
   trailing whitespace. -/
def pyStripL (l : List Char) : List Char :=
  List.rdropWhile isPyWs (l.dropWhile isPyWs)

/- Python str.strip. -/
def pyStrip (s : String) : String :=
  ⟨pyStripL s.data⟩

/- Python str.lower on one character (ASCII scope). -/
def pyLowerL (l : List Char) : List Char :=
  l.map Char.toLower

/- Python str.lower. -/
def pyLower (s : String) : String :=
  ⟨pyLowerL s.data⟩

/- Python str.split(sep) for a one-character separator, computed as the pair
   (first piece, remaining pieces); s.split(sep) always has one more piece
   than there are separator occurrences, empty pieces included. -/
def pySplitGo (sep : Char) : List Char → List Char × List (List Char)
  | [] => ([], [])
  | a :: l =>
    let r := pySplitGo sep l
    if a == sep then ([], r.1 :: r.2) else (a :: r.1, r.2)

/- Python str.split(sep) for a one-character separator. -/
def pySplitL (sep : Char) (l : List Char) : List (List Char) :=
  (pySplitGo sep l).1 :: (pySplitGo sep l).2

/- Python sep.join(pieces) for a one-character separator. -/
def pyJoinL (sep : Char) : List (List Char) → List Char
  | [] => []
  | [p] => p
  | p :: q :: ps => p ++ sep :: pyJoinL sep (q :: ps)

/- Python substring test, pat in s. -/
def pyInL (pat : List Char) : List Char → Bool
  | [] => pat.isEmpty
  | a :: l => pat.isPrefixOf (a :: l) || pyInL pat l

/- Python substring test on strings. -/
def pyIn (pat s : String) : Bool :=
  pyInL pat.data s.data

/- Decimal digit character, for d < 10. -/
def digitChar (d : Nat) : Char :=
  match d with
  | 0 => '0'
  | 1 => '1'
  | 2 => '2'
  | 3 => '3'
  | 4 => '4'
  | 5 => '5'
  | 6 => '6'
  | 7 => '7'
  | 8 => '8'
  | _ => '9'

/- Decimal digit list of a natural number, most significant digit first, no
   leading zeros: the character content of Python str(n) for n >= 0.
   Structural recursion on a fuel argument keeps the definition kernel
   computable; fuel n + 1 always suffices because n / 10 < n. -/
def natDigitsAux : Nat → Nat → List Char
  | 0, _ => []
  | fuel + 1, n =>
    if n < 10 then [digitChar n]
    else natDigitsAux fuel (n / 10) ++ [digitChar (n % 10)]

def natDigits (n : Nat) : List Char := natDigitsAux (n + 1) n

/- Python str(n) for a natural number n, i.e. the decimal numeral. -/
def natRepr (n : Nat) : String :=
  ⟨natDigits n⟩

/- Value of a decimal digit character. -/
def digitVal (c : Char) : Nat :=
  c.toNat - 48

/- Value of a most-significant-first digit string. -/
def digitsVal (l : List Char) : Nat :=
  l.foldl (fun a c => a * 10 + digitVal c) 0

theorem digitVal_digitChar {d : Nat} (h : d < 10) : digitVal (digitChar d) = d := by
  interval_cases d <;> rfl

theorem digitsVal_append_singleton (l : List Char) (c : Char) :
    digitsVal (l ++ [c]) = digitsVal l * 10 + digitVal c := by
  simp [digitsVal, List.foldl_append]

theorem digitsVal_natDigitsAux : ∀ fuel n, n < fuel → digitsVal (natDigitsAux fuel n) = n := by
  intro fuel
  induction fuel with
  | zero =>
    intro n h
    omega
  | succ fuel ih =>
    intro n h
    by_cases h10 : n < 10
    · simp [natDigitsAux, h10, digitsVal, digitVal_digitChar h10]
    · have hdiv : n / 10 < n := Nat.div_lt_self (by omega) (by omega)
      simp only [natDigitsAux, if_neg h10]
      rw [digitsVal_append_singleton, ih (n / 10) (by omega),
        digitVal_digitChar (Nat.mod_lt _ (by omega))]
      omega

theorem digitsVal_natDigits : ∀ n, digitsVal (natDigits n) = n := by
  intro n
  exact digitsVal_natDigitsAux (n + 1) n (by omega)

theorem natDigits_injective : Function.Injective natDigits := by
  intro m n h
  have := congrArg digitsVal h
  rwa [digitsVal_natDigits, digitsVal_natDigits] at this

theorem natRepr_injective : Function.Injective natRepr := by
  intro m n h
  exact natDigits_injective (congrArg String.data h)

/- Facts about pyStripL. -/

theorem pyStripL_nil : pyStripL [] = [] := rfl

theorem pyStripL_cons_of_ws {a : Char} (h : isPyWs a = true) (l : List Char) :
    pyStripL (a :: l) = pyStripL l := by
  unfold pyStripL
  rw [List.dropWhile_cons_of_pos h]

theorem pyStripL_eq_nil_iff {l : List Char} :
    pyStripL l = [] ↔ ∀ c ∈ l, isPyWs c := by
  unfold pyStripL
  rw [List.rdropWhile_eq_nil_iff]
  constructor
  · intro h c hc
    rcases List.mem_append.mp (show c ∈ l.takeWhile isPyWs ++ l.dropWhile isPyWs by
        rw [List.takeWhile_append_dropWhile]; exact hc) with h1 | h2
    · exact List.mem_takeWhile_imp h1
    · exact h c h2
  · intro h c hc
    exact h c ((List.dropWhile_suffix isPyWs).sublist.subset hc)

theorem rdropWhile_append {α : Type} [DecidableEq α] {p : α → Bool} (l m : List α) :
    List.rdropWhile p (l ++ m) =
      if List.rdropWhile p m = [] then List.rdropWhile p l else l ++ List.rdropWhile p m := by
  have hrev : ∀ x : List α, List.rdropWhile p x = [] ↔ x.reverse.dropWhile p = [] := by
    intro x
    unfold List.rdropWhile
    rw [List.reverse_eq_nil_iff]
  by_cases h : List.rdropWhile p m = []
  · rw [if_pos h]
    unfold List.rdropWhile
    rw [List.reverse_append, List.dropWhile_append,
      if_pos (List.isEmpty_iff.mpr ((hrev m).mp h))]
  · rw [if_neg h]
    unfold List.rdropWhile
    rw [List.reverse_append, List.dropWhile_append,
      if_neg (fun hc => h ((hrev m).mpr (List.isEmpty_iff.mp hc))),
      List.reverse_append, List.reverse_reverse]

theorem rdropWhile_cons {α : Type} [DecidableEq α] {p : α → Bool} (a : α) (l : List α) :
    List.rdropWhile p (a :: l) =
      if List.rdropWhile p l = [] then (if p a then [] else [a])
      else a :: List.rdropWhile p l := by
  have h : a :: l = [a] ++ l := rfl
  rw [h, rdropWhile_append]
  split
  · rw [List.rdropWhile_singleton]
  · rfl

theorem head_of_prefix_pos {α : Type} {l m : List α} (h : l <+: m) (hl : 0 < l.length) :
    ∃ hm : 0 < m.length, m.get ⟨0, hm⟩ = l.get ⟨0, hl⟩ := by
  obtain ⟨t, ht⟩ := h
  subst ht
  refine ⟨by rw [List.length_append]; omega, ?_⟩
  exact List.get_append 0 hl

theorem dropWhile_rdropWhile_comm {α : Type} [DecidableEq α] {p : α → Bool} (l : List α) :
    (List.rdropWhile p l).dropWhile p = List.rdropWhile p (l.dropWhile p) := by
  by_cases hd : List.rdropWhile p (l.dropWhile p) = []
  · have hall : ∀ x ∈ l, p x := by
      intro x hx
      rcases List.mem_append.mp (show x ∈ l.takeWhile p ++ l.dropWhile p by
          rw [List.takeWhile_append_dropWhile]; exact hx) with h1 | h2
      · exact List.mem_takeWhile_imp h1
      · exact List.rdropWhile_eq_nil_iff.mp hd x h2
    rw [hd, List.rdropWhile_eq_nil_iff.mpr hall]
    rfl
  · conv_lhs => rw [show l = l.takeWhile p ++ l.dropWhile p from
      (List.takeWhile_append_dropWhile p l).symm]
    rw [rdropWhile_append, if_neg hd, List.dropWhile_append]
    have htk : ((l.takeWhile p).dropWhile p).isEmpty = true := by
      rw [List.isEmpty_iff, List.dropWhile_eq_nil_iff]
      intro x hx
      exact List.mem_takeWhile_imp hx
    rw [if_pos htk, List.dropWhile_eq_self_iff]
    intro hlen
    obtain ⟨hm, heq⟩ := head_of_prefix_pos ( List.rdropWhile_prefix p (l.dropWhile p)) hlen
    rw [← heq]
    exact List.dropWhile_get_zero_not p l hm

theorem pyStripL_rdropWhile (l : List Char) :
    pyStripL (List.rdropWhile isPyWs l) = pyStripL l := by
  unfold pyStripL
  rw [dropWhile_rdropWhile_comm, List.rdropWhile_idempotent]

theorem pyStripL_dropWhile (l : List Char) :
    pyStripL (l.dropWhile isPyWs) = pyStripL l := by
  unfold pyStripL
  rw [List.dropWhile_idempotent]

theorem pyStripL_idem (l : List Char) : pyStripL (pyStripL l) = pyStripL l := by
  unfold pyStripL
  rw [dropWhile_rdropWhile_comm, List.dropWhile_idempotent, List.rdropWhile_idempotent]

/- Facts about pySplitL and pyJoinL. -/

theorem pySplitGo_nil {sep : Char} : pySplitGo sep [] = ([], []) := rfl

theorem pySplitGo_cons_sep {sep a : Char} (h : a = sep) (l : List Char) :
    pySplitGo sep (a :: l) = ([], (pySplitGo sep l).1 :: (pySplitGo sep l).2) := by
  simp [pySplitGo, h]

theorem pySplitGo_cons_ne {sep a : Char} (h : ¬ a = sep) (l : List Char) :
    pySplitGo sep (a :: l) = (a :: (pySplitGo sep l).1, (pySplitGo sep l).2) := by
  simp [pySplitGo, h]

theorem pySplitL_eq_pair {sep : Char} (l : List Char) :
    pySplitL sep l = (pySplitGo sep l).1 :: (pySplitGo sep l).2 := rfl

theorem pySplitL_cons_sep {sep a : Char} (h : a = sep) (l : List Char) :
    pySplitL sep (a :: l) = [] :: pySplitL sep l := by
  simp only [pySplitL, pySplitGo_cons_sep h]

theorem pySplitL_cons_ne {sep a : Char} (h : ¬ a = sep) (l : List Char) :
    pySplitL sep (a :: l) = (a :: (pySplitGo sep l).1) :: (pySplitGo sep l).2 := by
  simp only [pySplitL, pySplitGo_cons_ne h]

theorem pySplitGo_no_sep {sep : Char} :
    ∀ {l : List Char}, sep ∉ l → pySplitGo sep l = (l, []) := by
  intro l
  induction l with
  | nil => intro _; rfl
  | cons a l ih =>
    intro h
    have ha : ¬ a = sep := fun hc => h (hc ▸ List.mem_cons_self a l)
    rw [pySplitGo_cons_ne ha, ih (fun hc => h (List.mem_cons_of_mem a hc))]

theorem pySplitGo_snd_nil {sep : Char} :
    ∀ {l : List Char}, (pySplitGo sep l).2 = [] → (pySplitGo sep l).1 = l := by
  intro l
  induction l with
  | nil => intro _; rfl
  | cons a l ih =>
    intro h
    by_cases ha : a = sep
    · rw [pySplitGo_cons_sep ha] at h
      exact absurd h (List.cons_ne_nil _ _)
    · rw [pySplitGo_cons_ne ha] at h ⊢
      rw [ih h]

theorem sep_not_mem_of_mem_pySplitL {sep : Char} :
    ∀ {l : List Char} {p : List Char}, p ∈ pySplitL sep l → sep ∉ p := by
  intro l
  induction l with
  | nil =>
    intro p hp
    have hp0 : p = [] := by simpa [pySplitL, pySplitGo] using hp
    simp [hp0]
  | cons a l ih =>
    intro p hp
    by_cases ha : a = sep
    · rw [pySplitL, pySplitGo_cons_sep ha] at hp
      rcases List.mem_cons.mp hp with h | h
      · simp [h]
      · exact ih h
    · rw [pySplitL, pySplitGo_cons_ne ha] at hp
      rcases List.mem_cons.mp hp with h | h
      · subst h
        intro hc
        rcases List.mem_cons.mp hc with h | h
        · exact ha h.symm
        · exact ih (List.mem_cons_self _ _) h
      · exact ih (List.mem_cons_of_mem _ h)

theorem mem_of_mem_pySplitL {sep : Char} :
    ∀ {l p : List Char} {x : Char}, p ∈ pySplitL sep l → x ∈ p → x ∈ l := by
  intro l
  induction l with
  | nil =>
    intro p x hp hx
    have hp0 : p = [] := by simpa [pySplitL, pySplitGo] using hp
    simp [hp0] at hx
  | cons a l ih =>
    intro p x hp hx
    by_cases ha : a = sep
    · rw [pySplitL, pySplitGo_cons_sep ha] at hp
      rcases List.mem_cons.mp hp with h | h
      · simp [h] at hx
      · exact List.mem_cons_of_mem a (ih h hx)
    · rw [pySplitL, pySplitGo_cons_ne ha] at hp
      rcases List.mem_cons.mp hp with h | h
      · subst h
        rcases List.mem_cons.mp hx with h | h
        · exact h ▸ List.mem_cons_self a l
        · exact List.mem_cons_of_mem a (ih (List.mem_cons_self _ _) h)
      · exact List.mem_cons_of_mem a (ih (List.mem_cons_of_mem _ h) hx)

theorem pySplitGo_append_sep {sep : Char} :
    ∀ {p : List Char}, sep ∉ p → ∀ rest : List Char,
      pySplitGo sep (p ++ sep :: rest) =
        (p, (pySplitGo sep rest).1 :: (pySplitGo sep rest).2) := by
  intro p
  induction p with
  | nil =>
    intro _ rest
    rw [List.nil_append, pySplitGo_cons_sep rfl]
  | cons a p ih =>
    intro hp rest
    have ha : ¬ a = sep := fun hc => hp (hc ▸ List.mem_cons_self a p)
    have hp2 : sep ∉ p := fun hc => hp (List.mem_cons_of_mem a hc)
    rw [List.cons_append, pySplitGo_cons_ne ha, ih hp2]

theorem pySplitL_join {sep : Char} :
    ∀ {ps : List (List Char)} {p : List Char}, (∀ q ∈ p :: ps, sep ∉ q) →
      pySplitL sep (pyJoinL sep (p :: ps)) = p :: ps := by
  intro ps
  induction ps with
  | nil =>
    intro p h
    have hj : pyJoinL sep [p] = p := rfl
    rw [hj, pySplitL, pySplitGo_no_sep (h p (List.mem_cons_self _ _))]
  | cons q ps ih =>
    intro p h
    have hp : sep ∉ p := h p (List.mem_cons_self _ _)
    have hrest : ∀ r ∈ q :: ps, sep ∉ r := fun r hr => h r (List.mem_cons_of_mem p hr)
    have hjoin : pyJoinL sep (p :: q :: ps) = p ++ sep :: pyJoinL sep (q :: ps) := rfl
    rw [hjoin, pySplitL, pySplitGo_append_sep hp]
    have ihq := ih hrest
    rw [pySplitL] at ihq
    have h1 : (pySplitGo sep (pyJoinL sep (q :: ps))).1 = q := by
      have hh := congrArg List.head? ihq
      simpa using hh
    have h2 : (pySplitGo sep (pyJoinL sep (q :: ps))).2 = ps := by
      have ht := congrArg List.tail ihq
      simpa using ht
    simp [h1, h2]

theorem mem_pyJoinL {sep : Char} :
    ∀ {ps : List (List Char)} {x : Char}, x ∈ pyJoinL sep ps →
      x = sep ∨ ∃ p ∈ ps, x ∈ p := by
  intro ps
  induction ps with
  | nil =>
    intro x hx
    simp [pyJoinL] at hx
  | cons p ps ih =>
    intro x hx
    cases ps with
    | nil =>
      right
      exact ⟨p, List.mem_cons_self _ _, hx⟩
    | cons q ps' =>
      rw [show pyJoinL sep (p :: q :: ps') = p ++ sep :: pyJoinL sep (q :: ps') from rfl] at hx
      rcases List.mem_append.mp hx with h | h
      · exact Or.inr ⟨p, List.mem_cons_self _ _, h⟩
      · rcases List.mem_cons.mp h with h | h
        · exact Or.inl h
        · rcases ih h with h | ⟨r, hr, hxr⟩
          · exact Or.inl h
          · exact Or.inr ⟨r, List.mem_cons_of_mem p hr, hxr⟩

/- Facts about Char.toLower and whitespace. -/

theorem toNat_ofNat_of_valid {n : Nat} (h : n.isValidChar) : (Char.ofNat n).toNat = n := by
  rw [Char.ofNat, dif_pos h]
  rfl

theorem toLower_eq (c : Char) :
    c.toLower = if c.toNat ≥ 65 ∧ c.toNat ≤ 90 then Char.ofNat (c.toNat + 32) else c := rfl

theorem toLower_toLower (c : Char) : c.toLower.toLower = c.toLower := by
  rw [toLower_eq c]
  by_cases h : c.toNat ≥ 65 ∧ c.toNat ≤ 90
  · rw [if_pos h, toLower_eq]
    have hv : (c.toNat + 32).isValidChar := Or.inl (by omega)
    rw [toNat_ofNat_of_valid hv, if_neg (by omega)]
  · rw [if_neg h, toLower_eq, if_neg h]

theorem char_toNat_inj {c d : Char} (h : c.toNat = d.toNat) : c = d := by
  have h2 := congrArg Char.ofNat h
  rwa [Char.ofNat_toNat, Char.ofNat_toNat] at h2

theorem toNat_le_of_isPyWs {d : Char} (h : isPyWs d = true) : d.toNat ≤ 32 := by
  unfold isPyWs at h
  simp only [Bool.or_eq_true, beq_iff_eq] at h
  rcases h with ((((h | h) | h) | h) | h) | h <;> subst h <;> decide

theorem isPyWs_toLower (c : Char) : isPyWs c.toLower = isPyWs c := by
  rw [toLower_eq]
  by_cases h : c.toNat ≥ 65 ∧ c.toNat ≤ 90
  · rw [if_pos h]
    have hv : (c.toNat + 32).isValidChar := Or.inl (by omega)
    have ht : (Char.ofNat (c.toNat + 32)).toNat = c.toNat + 32 := toNat_ofNat_of_valid hv
    have hL : isPyWs (Char.ofNat (c.toNat + 32)) = false := by
      cases hx : isPyWs (Char.ofNat (c.toNat + 32)) with
      | false => rfl
      | true => exact absurd (toNat_le_of_isPyWs hx) (by rw [ht]; omega)
    have hR : isPyWs c = false := by
      cases hx : isPyWs c with
      | false => rfl
      | true => exact absurd (toNat_le_of_isPyWs hx) (by omega)
    rw [hL, hR]
  · rw [if_neg h]

theorem isPyWs_comma : isPyWs ',' = false := rfl

theorem toLower_comma : Char.toLower ',' = ',' := rfl

theorem map_eq_self_of_fixed {α : Type} {f : α → α} :
    ∀ {l : List α}, (∀ x ∈ l, f x = x) → l.map f = l := by
  intro l
  induction l with
  | nil => intro _; rfl
  | cons a l ih =>
    intro h
    rw [List.map_cons, h a (List.mem_cons_self _ _),
      ih (fun x hx => h x (List.mem_cons_of_mem a hx))]

theorem rdropWhile_map {α β : Type} (f : α → β) (p : β → Bool) (l : List α) :
    List.rdropWhile p (l.map f) = (List.rdropWhile (fun x => p (f x)) l).map f := by
  unfold List.rdropWhile
  rw [← List.map_reverse, List.dropWhile_map, List.map_reverse]
  rfl

theorem pyLowerL_pyStripL (l : List Char) :
    pyLowerL (pyStripL l) = pyStripL (pyLowerL l) := by
  unfold pyLowerL pyStripL
  rw [List.dropWhile_map, rdropWhile_map]
  have hws : (fun x => isPyWs x.toLower) = isPyWs := by
    funext x
    exact isPyWs_toLower x
  simp only [Function.comp_def]
  rw [hws]

theorem pyStripL_sublist (l : List Char) : List.Sublist (pyStripL l) l :=
  (( List.rdropWhile_prefix _ _).sublist).trans ((List.dropWhile_suffix _).sublist)

theorem pyStripL_singleton_not_ws {a : Char} (h : isPyWs a = false) :
    pyStripL [a] = [a] := by
  unfold pyStripL
  rw [List.dropWhile_cons_of_neg (by simp [h]), List.rdropWhile_singleton, if_neg (by simp [h])]

theorem pyStripL_cons_not_ws {a : Char} (h : isPyWs a = false) (l : List Char) :
    pyStripL (a :: l) = List.rdropWhile isPyWs (a :: l) := by
  unfold pyStripL
  rw [List.dropWhile_cons_of_neg (by simp [h])]

/- Splitting after removing leading whitespace gives the same stripped
   pieces as splitting the original string. -/
theorem splitStrip_dropWhile {sep : Char} (hsep : isPyWs sep = false) :
    ∀ l : List Char,
      (pySplitL sep (l.dropWhile isPyWs)).map pyStripL = (pySplitL sep l).map pyStripL := by
  intro l
  induction l with
  | nil => rfl
  | cons a l ih =>
    cases hw : isPyWs a with
    | false => rw [List.dropWhile_cons_of_neg (by simp [hw])]
    | true =>
      have ha : ¬ a = sep := by
        intro hc
        rw [hc, hsep] at hw
        exact Bool.noConfusion hw
      rw [List.dropWhile_cons_of_pos hw, ih, pySplitL_cons_ne ha,
        pySplitL_eq_pair l]
      simp only [List.map_cons]
      rw [pyStripL_cons_of_ws hw]

/- Removing trailing whitespace changes neither the stripped pieces nor,
   when there are at least two pieces, the raw first piece. -/
theorem splitStrip_rdropWhile {sep : Char} (hsep : isPyWs sep = false) :
    ∀ l : List Char,
      (pySplitL sep (List.rdropWhile isPyWs l)).map pyStripL
          = (pySplitL sep l).map pyStripL ∧
      ((pySplitGo sep l).2 ≠ [] →
        (pySplitGo sep (List.rdropWhile isPyWs l)).1 = (pySplitGo sep l).1) := by
  intro l
  induction l with
  | nil => exact ⟨rfl, fun h => absurd rfl h⟩
  | cons a l ih =>
    obtain ⟨ihB, ihF⟩ := ih
    by_cases hr : List.rdropWhile isPyWs l = []
    · have hall : ∀ x ∈ l, isPyWs x := List.rdropWhile_eq_nil_iff.mp hr
      have hnosep : sep ∉ l := by
        intro hc
        have hws := hall sep hc
        rw [hsep] at hws
        exact Bool.noConfusion hws
      have hgo : pySplitGo sep l = (l, []) := pySplitGo_no_sep hnosep
      rw [rdropWhile_cons, if_pos hr]
      by_cases hwa : isPyWs a = true
      · have ha : ¬ a = sep := by
          intro hc
          rw [hc, hsep] at hwa
          exact Bool.noConfusion hwa
        constructor
        · rw [if_pos hwa]
          have hstrip : pyStripL (a :: l) = [] := by
            rw [pyStripL_eq_nil_iff]
            intro c hc
            rcases List.mem_cons.mp hc with h | h
            · rw [h]; exact hwa
            · exact hall c h
          rw [pySplitL_cons_ne ha, hgo]
          simp [pySplitL, pySplitGo, hstrip, pyStripL_nil]
        · intro h2
          rw [pySplitGo_cons_ne ha, hgo] at h2
          exact absurd rfl h2
      · rw [if_neg hwa]
        rw [Bool.not_eq_true] at hwa
        by_cases ha : a = sep
        · subst ha
          have hstripl : pyStripL l = [] := pyStripL_eq_nil_iff.mpr hall
          constructor
          · rw [pySplitL_cons_sep rfl, pySplitL_cons_sep rfl, pySplitL_eq_pair l, hgo,
              @pySplitL_eq_pair a [], pySplitGo_nil]
            simp [hstripl, pyStripL_nil]
          · intro _
            rw [pySplitGo_cons_sep rfl, pySplitGo_cons_sep rfl]
        · constructor
          · have h1 : pyStripL [a] = [a] := pyStripL_singleton_not_ws hwa
            have h2 : pyStripL (a :: l) = [a] := by
              rw [pyStripL_cons_not_ws hwa, rdropWhile_cons, if_pos hr, if_neg (by simp [hwa])]
            have hone : sep ∉ [a] := by
              intro hc
              rcases List.mem_cons.mp hc with h | h
              · exact ha h.symm
              · exact absurd h (List.not_mem_nil sep)
            rw [pySplitL_eq_pair [a], pySplitGo_no_sep hone, pySplitL_cons_ne ha, hgo]
            simp [h1, h2]
          · intro h2
            rw [pySplitGo_cons_ne ha, hgo] at h2
            exact absurd rfl h2
    · rw [rdropWhile_cons, if_neg hr]
      by_cases ha : a = sep
      · subst ha
        constructor
        · rw [pySplitL_cons_sep rfl, pySplitL_cons_sep rfl]
          simp only [List.map_cons]
          rw [ihB]
        · intro _
          rw [pySplitGo_cons_sep rfl, pySplitGo_cons_sep rfl]
      · have hB := ihB
        rw [pySplitL_eq_pair (List.rdropWhile isPyWs l), pySplitL_eq_pair l] at hB
        simp only [List.map_cons, List.cons.injEq] at hB
        obtain ⟨hBh, hBt⟩ := hB
        constructor
        · rw [pySplitL_cons_ne ha, pySplitL_cons_ne ha]
          simp only [List.map_cons, List.cons.injEq]
          refine ⟨?_, hBt⟩
          by_cases hwa : isPyWs a = true
          · rw [pyStripL_cons_of_ws hwa, pyStripL_cons_of_ws hwa, hBh]
          · rw [Bool.not_eq_true] at hwa
            by_cases hg2 : (pySplitGo sep l).2 = []
            · have hg1 : (pySplitGo sep l).1 = l := pySplitGo_snd_nil hg2
              have hg2r : (pySplitGo sep (List.rdropWhile isPyWs l)).2 = [] := by
                rw [hg2] at hBt
                simp only [List.map_nil, List.map_eq_nil_iff] at hBt
                exact hBt
              have hg1r : (pySplitGo sep (List.rdropWhile isPyWs l)).1
                  = List.rdropWhile isPyWs l := pySplitGo_snd_nil hg2r
              rw [hg1, hg1r, pyStripL_cons_not_ws hwa, pyStripL_cons_not_ws hwa,
                rdropWhile_cons, rdropWhile_cons a l,
                if_neg (by rw [List.rdropWhile_idempotent]; exact hr), if_neg hr,
                List.rdropWhile_idempotent]
            · rw [ihF hg2]
        · intro h2
          rw [pySplitGo_cons_ne ha] at h2 ⊢
          rw [pySplitGo_cons_ne ha]
          have hg2 : (pySplitGo sep l).2 ≠ [] := h2
          rw [ihF hg2]

/- A string fixed by strip is fixed by both one-sided whitespace removals. -/

theorem dropWhile_fixed_of_pyStripL_fixed {p : List Char} (h : pyStripL p = p) :
    p.dropWhile isPyWs = p := by
  calc p.dropWhile isPyWs
      = (pyStripL p).dropWhile isPyWs := by rw [h]
    _ = List.rdropWhile isPyWs ((p.dropWhile isPyWs).dropWhile isPyWs) :=
        dropWhile_rdropWhile_comm _
    _ = List.rdropWhile isPyWs (p.dropWhile isPyWs) := by rw [List.dropWhile_idempotent]
    _ = p := h

theorem rdropWhile_fixed_of_pyStripL_fixed {p : List Char} (h : pyStripL p = p) :
    List.rdropWhile isPyWs p = p := by
  calc List.rdropWhile isPyWs p
      = List.rdropWhile isPyWs (pyStripL p) := by rw [h]
    _ = List.rdropWhile isPyWs (p.dropWhile isPyWs) := List.rdropWhile_idempotent _ _
    _ = p := h

theorem head_not_ws_of_dropWhile_fixed {a : Char} {l : List Char}
    (h : (a :: l).dropWhile isPyWs = a :: l) : isPyWs a = false := by
  cases hw : isPyWs a with
  | false => rfl
  | true =>
    rw [List.dropWhile_cons_of_pos hw] at h
    have hlen := congrArg List.length h
    have hle : (l.dropWhile isPyWs).length ≤ l.length :=
      (List.dropWhile_suffix isPyWs).sublist.length_le
    simp at hlen
    omega

theorem pyJoinL_concat {sep : Char} :
    ∀ (ps : List (List Char)) (p : List Char),
      pyJoinL sep (ps ++ [p]) = if ps = [] then p else pyJoinL sep ps ++ sep :: p := by
  intro ps
  induction ps with
  | nil => intro p; rfl
  | cons q ps ih =>
    intro p
    rw [if_neg (List.cons_ne_nil q ps)]
    cases ps with
    | nil => rfl
    | cons r ps' =>
      have h1 : pyJoinL sep ((q :: r :: ps') ++ [p])
          = q ++ sep :: pyJoinL sep ((r :: ps') ++ [p]) := rfl
      have h2 : pyJoinL sep (q :: r :: ps') = q ++ sep :: pyJoinL sep (r :: ps') := rfl
      rw [h1, ih p, if_neg (List.cons_ne_nil r ps'), h2, List.append_assoc]
      rfl

theorem dropWhile_pyJoinL_fixed {sep : Char} (hsep : isPyWs sep = false)
    {ps : List (List Char)} (h : ∀ p ∈ ps, pyStripL p = p) :
    (pyJoinL sep ps).dropWhile isPyWs = pyJoinL sep ps := by
  cases ps with
  | nil => rfl
  | cons p ps' =>
    cases ps' with
    | nil => exact dropWhile_fixed_of_pyStripL_fixed (h p (List.mem_cons_self _ _))
    | cons q rest =>
      have hj : pyJoinL sep (p :: q :: rest) = p ++ sep :: pyJoinL sep (q :: rest) := rfl
      rw [hj]
      cases p with
      | nil =>
        rw [List.nil_append]
        exact List.dropWhile_cons_of_neg (by simp [hsep])
      | cons a p' =>
        have hfix := h (a :: p') (List.mem_cons_self _ _)
        have ha : isPyWs a = false :=
          head_not_ws_of_dropWhile_fixed (dropWhile_fixed_of_pyStripL_fixed hfix)
        rw [List.cons_append]
        exact List.dropWhile_cons_of_neg (by simp [ha])

theorem rdropWhile_pyJoinL_fixed {sep : Char} (hsep : isPyWs sep = false)
    {ps : List (List Char)} (h : ∀ p ∈ ps, pyStripL p = p) :
    List.rdropWhile isPyWs (pyJoinL sep ps) = pyJoinL sep ps := by
  rcases List.eq_nil_or_concat' ps with hnil | ⟨init, p, hps⟩
  · rw [hnil]; rfl
  · subst hps
    have hpfix : pyStripL p = p := h p (by simp)
    have hrp : List.rdropWhile isPyWs p = p := rdropWhile_fixed_of_pyStripL_fixed hpfix
    rw [pyJoinL_concat]
    by_cases hinit : init = []
    · rw [if_pos hinit]; exact hrp
    · rw [if_neg hinit]
      have hsp : List.rdropWhile isPyWs (sep :: p) = sep :: p := by
        rw [rdropWhile_cons, hrp]
        by_cases hp0 : p = []
        · rw [if_pos hp0, if_neg (by simp [hsep]), hp0]
        · rw [if_neg hp0]
      rw [rdropWhile_append, if_neg (by rw [hsp]; exact List.cons_ne_nil sep p), hsp]

theorem pyStripL_pyJoinL_fixed {sep : Char} (hsep : isPyWs sep = false)
    {ps : List (List Char)} (h : ∀ p ∈ ps, pyStripL p = p) :
    pyStripL (pyJoinL sep ps) = pyJoinL sep ps := by
  unfold pyStripL
  rw [dropWhile_pyJoinL_fixed hsep h, rdropWhile_pyJoinL_fixed hsep h]

/- heartmula_gradio.py, format_tags_for_file (lines 71-80): an empty or
   all-whitespace input gives ""; otherwise the input is stripped,
   lower-cased, split on commas, each piece is stripped, and the pieces are
   re-joined with commas (no space after commas). -/
def format_tags_for_file (tags : String) : String :=
  if tags.data = [] ∨ pyStripL tags.data = [] then ""
  else ⟨pyJoinL ',' ((pySplitL ',' (pyLowerL (pyStripL tags.data))).map pyStripL)⟩

/- Modelled from the spec: "the input lower-cased, split on commas, with
   whitespace stripped around each tag, re-joined with commas".  Stated
   as written, with no stripping of the whole input first. -/
def specFormatTags (tags : String) : String :=
  ⟨pyJoinL ',' ((pySplitL ',' (pyLowerL tags.data)).map pyStripL)⟩

theorem format_tags_eq_spec (s : String) : format_tags_for_file s = specFormatTags s := by
  unfold format_tags_for_file specFormatTags
  by_cases h : s.data = [] ∨ pyStripL s.data = []
  · rw [if_pos h]
    have hstrip : pyStripL s.data = [] := by
      rcases h with h | h
      · rw [h]; rfl
      · exact h
    have hall : ∀ c ∈ s.data, isPyWs c := pyStripL_eq_nil_iff.mp hstrip
    have halllow : ∀ c ∈ pyLowerL s.data, isPyWs c := by
      intro c hc
      obtain ⟨d, hd, hdc⟩ := List.mem_map.mp hc
      rw [← hdc, isPyWs_toLower]
      exact hall d hd
    have hnosep : (',' : Char) ∉ pyLowerL s.data := by
      intro hc
      have hcc := halllow ',' hc
      rw [isPyWs_comma] at hcc
      exact Bool.noConfusion hcc
    have hone : pySplitL ',' (pyLowerL s.data) = [pyLowerL s.data] := by
      rw [pySplitL_eq_pair, pySplitGo_no_sep hnosep]
    have hstriplow : pyStripL (pyLowerL s.data) = [] := pyStripL_eq_nil_iff.mpr halllow
    rw [hone]
    simp only [List.map_cons, List.map_nil, hstriplow]
    rfl
  · rw [if_neg h]
    have hchain : (pySplitL ',' (pyStripL (pyLowerL s.data))).map pyStripL
        = (pySplitL ',' (pyLowerL s.data)).map pyStripL := by
      have h1 : pyStripL (pyLowerL s.data)
          = List.rdropWhile isPyWs ((pyLowerL s.data).dropWhile isPyWs) := rfl
      rw [h1, (splitStrip_rdropWhile isPyWs_comma ((pyLowerL s.data).dropWhile isPyWs)).1,
        splitStrip_dropWhile isPyWs_comma]
    rw [pyLowerL_pyStripL, hchain]

theorem format_tags_mk (l : List Char) :
    format_tags_for_file ⟨l⟩ =
      if l = [] ∨ pyStripL l = [] then ""
      else ⟨pyJoinL ',' ((pySplitL ',' (pyLowerL (pyStripL l))).map pyStripL)⟩ := rfl

theorem format_tags_idem_aux (s : String) :
    format_tags_for_file (format_tags_for_file s) = format_tags_for_file s := by
  by_cases h : s.data = [] ∨ pyStripL s.data = []
  · have h0 : format_tags_for_file s = "" := by
      rw [format_tags_for_file, if_pos h]
    rw [h0, format_tags_for_file, if_pos (Or.inl rfl)]
  · have hfs : format_tags_for_file s
        = ⟨pyJoinL ',' ((pySplitL ',' (pyLowerL (pyStripL s.data))).map pyStripL)⟩ := by
      rw [format_tags_for_file, if_neg h]
    set t := pyLowerL (pyStripL s.data) with ht
    set pieces := (pySplitL ',' t).map pyStripL with hpieces
    set out := pyJoinL ',' pieces with hout
    have P1 : ∀ p ∈ pieces, pyStripL p = p := by
      intro p hp
      obtain ⟨q, hq, hqp⟩ := List.mem_map.mp hp
      rw [← hqp]
      exact pyStripL_idem q
    have P2 : ∀ p ∈ pieces, (',' : Char) ∉ p := by
      intro p hp hc
      obtain ⟨q, hq, hqp⟩ := List.mem_map.mp hp
      exact sep_not_mem_of_mem_pySplitL hq ((pyStripL_sublist q).subset (hqp ▸ hc))
    have P3 : ∀ x ∈ out, Char.toLower x = x := by
      intro x hx
      rcases mem_pyJoinL hx with hxc | ⟨p, hp, hxp⟩
      · rw [hxc]
        exact toLower_comma
      · obtain ⟨q, hq, hqp⟩ := List.mem_map.mp hp
        have hxq : x ∈ q := (pyStripL_sublist q).subset (hqp ▸ hxp)
        have hxt : x ∈ t := mem_of_mem_pySplitL hq hxq
        obtain ⟨d, hd, hdx⟩ := List.mem_map.mp hxt
        rw [← hdx]
        exact toLower_toLower d
    have P4 : pyStripL out = out := pyStripL_pyJoinL_fixed isPyWs_comma P1
    obtain ⟨p0, ps0, hcons⟩ : ∃ p0 ps0, pieces = p0 :: ps0 := by
      rw [hpieces, pySplitL_eq_pair]
      simp only [List.map_cons]
      exact ⟨_, _, rfl⟩
    rw [hfs, format_tags_mk]
    by_cases hout0 : out = []
    · rw [if_pos (Or.inl hout0), hout0]
    · have hcond : ¬ (out = [] ∨ pyStripL out = []) := by
        intro hc
        rcases hc with hc | hc
        · exact hout0 hc
        · rw [P4] at hc
          exact hout0 hc
      rw [if_neg hcond]
      refine congrArg String.mk ?_
      have P3L : pyLowerL out = out := by
        unfold pyLowerL
        exact map_eq_self_of_fixed P3
      rw [P4, P3L]
      have hsplit : pySplitL ',' out = pieces := by
        rw [hout, hcons]
        refine pySplitL_join ?_
        intro q hq
        rw [← hcons] at hq
        exact P2 q hq
      rw [hsplit, map_eq_self_of_fixed P1]

/- Facts about the substring test pyInL. -/

theorem pyInL_of_prefix {pat s : List Char} (h : pat <+: s) : pyInL pat s = true := by
  cases s with
  | nil =>
    have hp : pat = [] := List.prefix_nil.mp h
    rw [hp]
    rfl
  | cons a s' =>
    unfold pyInL
    rw [ List.isPrefixOf_iff_prefix.mpr h]
    rfl

theorem pyInL_append_left {pat s : List Char} (h : pyInL pat s = true) :
    ∀ l : List Char, pyInL pat (l ++ s) = true := by
  intro l
  induction l with
  | nil => exact h
  | cons a l ih =>
    rw [List.cons_append]
    unfold pyInL
    rw [ih]
    exact Bool.or_true _

/- Python "sep".join(xs) for a general string separator. -/
def pyJoinLS (sep : List Char) : List (List Char) → List Char
  | [] => []
  | [p] => p
  | p :: q :: ps => p ++ sep ++ pyJoinLS sep (q :: ps)

/- Python sep.join(xs) on strings. -/
def pyJoinStrings (sep : String) (xs : List String) : String :=
  ⟨pyJoinLS sep.data (xs.map String.data)⟩

theorem pyInL_pyJoinLS_of_mem {sep : List Char} :
    ∀ {xs : List (List Char)} {x : List Char}, x ∈ xs →
      pyInL x (pyJoinLS sep xs) = true := by
  intro xs
  induction xs with
  | nil =>
    intro x hx
    exact absurd hx (List.not_mem_nil x)
  | cons p ps ih =>
    intro x hx
    rcases List.mem_cons.mp hx with hx | hx
    · subst hx
      cases ps with
      | nil => exact pyInL_of_prefix (List.prefix_refl x)
      | cons q ps' =>
        have hj : pyJoinLS sep (x :: q :: ps') = x ++ (sep ++ pyJoinLS sep (q :: ps')) := by
          rw [show pyJoinLS sep (x :: q :: ps') = x ++ sep ++ pyJoinLS sep (q :: ps') from rfl,
            List.append_assoc]
        rw [hj]
        exact pyInL_of_prefix (List.prefix_append x _)
    · cases ps with
      | nil => exact absurd hx (List.not_mem_nil x)
      | cons q ps' =>
        have hj : pyJoinLS sep (p :: q :: ps') = (p ++ sep) ++ pyJoinLS sep (q :: ps') := by
          rw [show pyJoinLS sep (p :: q :: ps') = p ++ sep ++ pyJoinLS sep (q :: ps') from rfl]
        rw [hj]
        exact pyInL_append_left (ih hx) _

theorem pyIn_pyJoinStrings_of_mem {x : String} {xs : List String} (h : x ∈ xs)
    (sep : String) : pyIn x (pyJoinStrings sep xs) = true :=
  pyInL_pyJoinLS_of_mem (List.mem_map_of_mem String.data h)

theorem pyIn_append_right {pat s : String} (h : pyIn pat s = true) (l : String) :
    pyIn pat (l ++ s) = true := by
  unfold pyIn at h ⊢
  rw [String.data_append]
  exact pyInL_append_left h l.data


/- Python float values are modeled by their repr string: json round-trips a
   CPython float exactly through repr, and every use in the shells either
   stores the value or renders it with str(), so the repr string determines
   all observable behaviour. -/
structure PyFloat where
  repr : String
deriving DecidableEq

/- Default lyrics text of the desktop shell (heartmula.py lines 106-128). -/
def defaultLyricsText : String :=
  "[Intro]\nGet Going Fast is so super... duper... radiant... kinetic... hyper...\n\n[Verse]\nturbo... mega... lightning-striker... star-glimmer...\n\nsuper... pulse... shimmer... ultra... hyper... turbo...\n\nnebula...\n\n[Prechorus]\necho... signal... flicker... spark... drift...\n\n[Chorus]\nGet Going Fast is so super... duper... vivid... electric... soaring...\n\nultra... hyper... turbo... mega... starlight...\n\n[Verse]\nhalo... prism... glow... flow...\n\nsoft... bright... endless... weightless...\n\n[Bridge]\nfade... rise... breathe... shine...\n\n[Chorus]\nGet Going Fast is so super... duper... radiant... kinetic... hyper...\n\nultra... hyper... turbo... mega... starlight...\n\n[Outro]\nfade... rise... glow... flow... ever... onward...\n"

/- Default tags text of the desktop shell (heartmula.py line 130). -/
def defaultTagsText : String :=
  "club house, female vocals, angelic, dreamy, 128 bpm, four-on-the-floor kick, offbeat open hi-hat, rolling bassline, sidechain compression, bright supersaw, riser, snare build, drop, festival energy, wide stereo"

/- Settings records.  The two shells each define a dataclass MulaSettings;
   they differ in their field sets, so both are modeled.  MulaSettingsD is
   the desktop shell's record (heartmula.py lines 97-132), MulaSettingsG
   the browser shell's (heartmula_gradio.py lines 87-96), with the
   documented field defaults. -/

structure MulaSettingsD where
  model_path : String := "ckpt"
  version : String := "3B"
  max_audio_length_ms : Int := 240000
  topk : Int := 50
  temperature : PyFloat := ⟨"1.0"⟩
  cfg_scale : PyFloat := ⟨"1.5"⟩
  lyrics_text : String := defaultLyricsText
  tags_text : String := defaultTagsText
  output_dir : String := "output"
  auto_open_output : Bool := true
deriving DecidableEq

structure MulaSettingsG where
  model_path : String := "ckpt"
  version : String := "3B"
  max_audio_length_sec : Int := 240
  topk : Int := 50
  temperature : PyFloat := ⟨"1.0"⟩
  cfg_scale : PyFloat := ⟨"1.5"⟩
  output_dir : String := "output"
deriving DecidableEq

/- A parsed settings JSON object, restricted to the recognized keys (the
   load functions filter the parsed dict down to the dataclass fields, so
   unknown keys never reach the record).  A present key holds a well-typed
   value; the claims only exercise files produced by save, which are
   well-typed.  A recognized key that is absent is None. -/

structure SettingsFileD where
  model_path : Option String := none
  version : Option String := none
  max_audio_length_ms : Option Int := none
  topk : Option Int := none
  temperature : Option PyFloat := none
  cfg_scale : Option PyFloat := none
  lyrics_text : Option String := none
  tags_text : Option String := none
  output_dir : Option String := none
  auto_open_output : Option Bool := none
deriving DecidableEq

structure SettingsFileG where
  model_path : Option String := none
  version : Option String := none
  max_audio_length_sec : Option Int := none
  topk : Option Int := none
  temperature : Option PyFloat := none
  cfg_scale : Option PyFloat := none
  output_dir : Option String := none
deriving DecidableEq

/- What MulaSettings.load finds at the settings path: the file is absent,
   or its contents do not parse into a JSON object with well-typed
   recognized keys (json.loads raises, or the parsed value is not a dict,
   or model_path holds a non-string - every such case raises inside the
   try block), or a parsed object. -/
inductive SettingsSrc (φ : Type) where
  | absent
  | bad
  | obj (f : φ)
deriving DecidableEq

/- The legacy model-path test of both load functions:
   "models/HeartMuLa" in old_path or "models/heartmula" in old_path.lower(). -/
def legacyModelPath (mp : String) : Bool :=
  pyIn "models/HeartMuLa" mp || pyIn "models/heartmula" (pyLower mp)

def migrateD (f : SettingsFileD) : SettingsFileD :=
  match f.model_path with
  | none => f
  | some mp => if legacyModelPath mp then { f with model_path := some "ckpt" } else f

def migrateG (f : SettingsFileG) : SettingsFileG :=
  match f.model_path with
  | none => f
  | some mp => if legacyModelPath mp then { f with model_path := some "ckpt" } else f

/- heartmula.py lines 134-150, MulaSettings.load.  A missing file returns
   the defaults.  Any exception while reading, parsing or migrating is
   caught by the except handler, whose body is `return sMulaSettings()`:
   the name sMulaSettings is not defined anywhere, so the handler itself
   raises NameError, which propagates to the caller - modeled as
   Except.error. -/
def MulaSettingsD.load (src : SettingsSrc SettingsFileD) : Except Unit MulaSettingsD :=
  match src with
  | .absent => .ok {}
  | .bad => .error ()
  | .obj f0 =>
    let f := migrateD f0
    .ok {
      model_path := f.model_path.getD "ckpt"
      version := f.version.getD "3B"
      max_audio_length_ms := f.max_audio_length_ms.getD 240000
      topk := f.topk.getD 50
      temperature := f.temperature.getD ⟨"1.0"⟩
      cfg_scale := f.cfg_scale.getD ⟨"1.5"⟩
      lyrics_text := f.lyrics_text.getD defaultLyricsText
      tags_text := f.tags_text.getD defaultTagsText
      output_dir := f.output_dir.getD "output"
      auto_open_output := f.auto_open_output.getD true }

/- heartmula_gradio.py lines 98-114, MulaSettings.load: identical logic,
   except that the handler correctly returns the default record. -/
def MulaSettingsG.load (src : SettingsSrc SettingsFileG) : MulaSettingsG :=
  match src with
  | .absent => {}
  | .bad => {}
  | .obj f0 =>
    let f := migrateG f0
    { model_path := f.model_path.getD "ckpt"
      version := f.version.getD "3B"
      max_audio_length_sec := f.max_audio_length_sec.getD 240
      topk := f.topk.getD 50
      temperature := f.temperature.getD ⟨"1.0"⟩
      cfg_scale := f.cfg_scale.getD ⟨"1.5"⟩
      output_dir := f.output_dir.getD "output" }

/- MulaSettings.save writes json.dumps(asdict(self)): every field is
   written.  Serialization followed by parsing is the identity on the
   well-typed object (indent and ensure_ascii only affect layout). -/
def MulaSettingsD.save (s : MulaSettingsD) : SettingsFileD :=
  { model_path := some s.model_path
    version := some s.version
    max_audio_length_ms := some s.max_audio_length_ms
    topk := some s.topk
    temperature := some s.temperature
    cfg_scale := some s.cfg_scale
    lyrics_text := some s.lyrics_text
    tags_text := some s.tags_text
    output_dir := some s.output_dir
    auto_open_output := some s.auto_open_output }

def MulaSettingsG.save (s : MulaSettingsG) : SettingsFileG :=
  { model_path := some s.model_path
    version := some s.version
    max_audio_length_sec := some s.max_audio_length_sec
    topk := some s.topk
    temperature := some s.temperature
    cfg_scale := some s.cfg_scale
    output_dir := some s.output_dir }


/- JSON values, as far as the preset catalog needs them. -/
inductive JVal where
  | js (s : String)
  | ji (n : Int)
  | jarr (xs : List JVal)
  | jobj (kvs : List (String × JVal))

/- heartmula_gradio.py lines 122-203, default_presets().  The desktop
   shell's copy (heartmula.py lines 158-239) is identical except that the
   dash inside preset names is a different mojibake sequence there; the
   preset query functions under verification live in the browser shell, so
   its literal is the one embedded.  All strings are byte-for-byte the
   source literals. -/
def default_presets : JVal :=
  .jobj [
    ("version", .ji 1),
    ("genres", .jarr [
      .jobj [
        ("name", .js "EDM"),
        ("presets", .jarr [
          .jobj [
            ("name", .js "House ‚Äì Club"),
            ("tags", .js "club house, 128 bpm, four-on-the-floor kick, offbeat open hi-hat, rolling bassline, sidechain compression, bright supersaw, riser, snare build, drop, festival energy, wide stereo")],
          .jobj [
            ("name", .js "Tech House"),
            ("tags", .js "tech house, 128 bpm, punchy kick and snare, groovy bass, syncopated percussion, shaker loop, minimal vocals, tension build, big drop, club mix")],
          .jobj [
            ("name", .js "Melodic Techno"),
            ("tags", .js "melodic techno, 126 bpm, driving kick, hypnotic arp, dark atmosphere, long buildup, impact hit, drop, cinematic pads")],
          .jobj [
            ("name", .js "Big Room"),
            ("tags", .js "big room, 130 bpm, huge kick, snare roll buildup, white noise riser, supersaw lead, massive drop, festival")],
          .jobj [
            ("name", .js "Drum & Bass ‚Äì Dancefloor"),
            ("tags", .js "drum and bass, 174 bpm, fast breakbeat, punchy kick and snare, rolling sub bass, reese bass, high energy, tension build, riser, impact hit, big drop, energetic synth stabs, atmospheric pad, DJ friendly, loop-based, minimal vocal chops")],
          .jobj [
            ("name", .js "Drum & Bass ‚Äì Neurofunk"),
            ("tags", .js "neurofunk, drum and bass, 172 bpm, tight snare, aggressive reese bass, growl bass, syncopated drums, gritty texture, dark atmosphere, industrial sound design, long buildup, snare roll, heavy drop, bass variation, minimal vocals, club mix, hard hitting")],
          .jobj [
            ("name", .js "Drum & Bass ‚Äì Liquid"),
            ("tags", .js "liquid drum and bass, 170 bpm, crisp breakbeat, warm sub bass, airy pads, emotional chords, clean mix, gentle riser, smooth drop, melodic lead, spacious reverb, minimal vocals, DJ friendly intro and outro")],
          .jobj [
            ("name", .js "Techno ‚Äì Driving Warehouse"),
            ("tags", .js "techno, 130 bpm, four-on-the-floor kick, rumbling bass, rolling percussion, offbeat hi-hat, hypnotic loop, dark warehouse, minimal vocals, repetitive groove, long buildup, tension, impact hit, drop, DJ friendly")],
          .jobj [
            ("name", .js "Techno ‚Äì Peak Time"),
            ("tags", .js "peak time techno, 132 bpm, powerful kick, driving bassline, big synth stab, build-up with snare roll, white noise riser, huge drop, energetic percussion, club mix, loop-based, crowd energy")],
          .jobj [
            ("name", .js "Techno ‚Äì Melodic"),
            ("tags", .js "melodic techno, 126 bpm, driving kick, arpeggiated synth, deep bass, cinematic pad, gradual buildup, impact hit, drop, wide stereo, minimal vocal chops, DJ friendly")],
          .jobj [
            ("name", .js "Hard Techno ‚Äì Rave"),
            ("tags", .js "hard techno, 150 bpm, hard four-on-the-floor kick, distorted rumble bass, aggressive percussion, rave stabs, intense energy, fast hats, build-up, snare roll, white noise riser, brutal drop, warehouse rave, relentless")],
          .jobj [
            ("name", .js "Hard Techno ‚Äì Industrial"),
            ("tags", .js "industrial hard techno, 145 bpm, heavy distorted kick, metallic percussion, dark atmosphere, gritty texture, pounding groove, relentless drive, tension build, impact hit, drop, harsh synth, underground")],
          .jobj [
            ("name", .js "Hard Techno ‚Äì Hardgroove"),
            ("tags", .js "hardgroove techno, 145 bpm, hard kick, groovy tom percussion, syncopated loops, fast hats, tribal percussion, hypnotic repetition, long buildup, drop, rave energy, DJ friendly")]])],
      .jobj [
        ("name", .js "Rock"),
        ("presets", .jarr [
          .jobj [
            ("name", .js "Rock ‚Äì Classic"),
            ("tags", .js "classic rock, 120 bpm, live drum kit, steady rock groove, crunchy rhythm guitars, melodic lead guitar, electric bass, verse chorus structure, big chorus, warm analog mix, arena feel")],
          .jobj [
            ("name", .js "Rock ‚Äì Hard Rock"),
            ("tags", .js "hard rock, 140 bpm, driving drums, punchy kick and snare, distorted power chords, palm-muted riffs, big chorus, guitar solo, gritty vocals, aggressive energy, modern rock mix, wide guitars")],
          .jobj [
            ("name", .js "Rock ‚Äì Metal"),
            ("tags", .js "heavy metal, 160 bpm, double kick, tight snare, fast riffs, palm-muted chugs, aggressive guitar tone, heavy bass, breakdown, solo section, intense vocals, raw power")]])],
      .jobj [
        ("name", .js "Pop"),
        ("presets", .jarr [
          .jobj [
            ("name", .js "Pop ‚Äì Modern"),
            ("tags", .js "modern pop, 118 bpm, clean punchy drums, bright synths, catchy hook, verse chorus structure, big chorus, polished vocal production, radio-ready mix, uplifting mood, wide stereo")],
          .jobj [
            ("name", .js "Pop ‚Äì Synthpop"),
            ("tags", .js "synthpop, 112 bpm, retro drum machine, gated snare, warm analog synths, arpeggiator, catchy melody, dreamy chords, smooth vocals, nostalgic 80s vibe, clean mix")],
          .jobj [
            ("name", .js "Pop ‚Äì Dance Pop"),
            ("tags", .js "dance pop, 124 bpm, four-on-the-floor kick, offbeat open hat, bright chords, sidechain compression, vocal hook, pre-chorus build, drop-style chorus, club-friendly, glossy mix")]])],
      .jobj [
        ("name", .js "R&B"),
        ("presets", .jarr [
          .jobj [
            ("name", .js "R&B ‚Äì Contemporary"),
            ("tags", .js "contemporary r&b, 92 bpm, smooth drums, deep sub bass, lush chords, soulful vocals, modern vocal layers, relaxed groove, intimate vibe, polished mix")],
          .jobj [
            ("name", .js "R&B ‚Äì Neo Soul"),
            ("tags", .js "neo soul, 85 bpm, swung groove, warm electric piano, jazzy chords, live bass feel, crisp snare, intimate vocals, laid-back pocket, organic texture, smooth mix")],
          .jobj [
            ("name", .js "R&B ‚Äì Trap Soul"),
            ("tags", .js "trap soul, 70 bpm, trap hats, 808 bass, minimal chords, airy pads, moody vibe, melodic vocals, emotional hook, sparse arrangement, late-night atmosphere")]])],
      .jobj [
        ("name", .js "Rap"),
        ("presets", .jarr [
          .jobj [
            ("name", .js "Rap ‚Äì Boom Bap"),
            ("tags", .js "boom bap rap, 92 bpm, classic hip hop drums, punchy kick, snappy snare, sampled vibe, chopped loop, gritty texture, head-nod groove, rap-focused, raw mix")],
          .jobj [
            ("name", .js "Rap ‚Äì Trap"),
            ("tags", .js "trap rap, 140 bpm, rapid hi-hats, 808 bass, hard snare, dark synth melody, aggressive energy, hook section, beat switch, modern mix, rap-focused")],
          .jobj [
            ("name", .js "Rap ‚Äì Drill"),
            ("tags", .js "drill rap, 145 bpm, sliding 808, sharp snare, syncopated hi-hats, dark piano or bell melody, tense vibe, aggressive rhythm, rap-forward, hard mix")]])],
      .jobj [
        ("name", .js "Ballad / Slow"),
        ("presets", .jarr [
          .jobj [
            ("name", .js "Ballad ‚Äì Piano"),
            ("tags", .js "piano ballad, 72 bpm, emotional piano chords, soft drums, gentle strings, intimate vocals, big chorus lift, gradual build, heartfelt mood, warm reverb")],
          .jobj [
            ("name", .js "Ballad ‚Äì Acoustic"),
            ("tags", .js "acoustic ballad, 78 bpm, acoustic guitar fingerpicking, soft percussion, warm bass, intimate vocal, emotional chorus, natural room sound, organic performance")],
          .jobj [
            ("name", .js "Ballad ‚Äì Cinematic"),
            ("tags", .js "cinematic ballad, 68 bpm, orchestral strings, piano, soft drums, emotional swells, dramatic build, big climax, film score feel, lush reverb")]])],
      .jobj [
        ("name", .js "Instrumental"),
        ("presets", .jarr [
          .jobj [
            ("name", .js "Instrumental ‚Äì Ambient"),
            ("tags", .js "ambient instrumental, 70 bpm, evolving pads, soft textures, spacious reverb, slow movement, atmospheric drones, minimal percussion, calming mood, cinematic soundscape, no vocals")],
          .jobj [
            ("name", .js "Instrumental ‚Äì Lo-fi"),
            ("tags", .js "lofi instrumental, 82 bpm, dusty drums, vinyl crackle texture, jazzy chords, warm bass, relaxed groove, soft melody, chill mood, loop-based, no vocals")],
          .jobj [
            ("name", .js "Instrumental ‚Äì Orchestral"),
            ("tags", .js "orchestral instrumental, 90 bpm, strings brass woodwinds, cinematic percussion, emotional theme, dynamic build, heroic climax, film score style, wide stereo, no vocals")]])],
      .jobj [
        ("name", .js "Reggae"),
        ("presets", .jarr [
          .jobj [
            ("name", .js "Reggae ‚Äì Roots"),
            ("tags", .js "roots reggae, 74 bpm, one drop rhythm, skank guitar on offbeat, warm bassline, live drums, relaxed groove, sunny vibe, soulful vocals, organic mix")],
          .jobj [
            ("name", .js "Reggae ‚Äì Dancehall"),
            ("tags", .js "dancehall, 96 bpm, modern drum pattern, heavy bass, syncopated rhythm, energetic vibe, catchy chant hook, club-ready, bright synth accents, punchy mix")],
          .jobj [
            ("name", .js "Reggae ‚Äì Dub"),
            ("tags", .js "dub reggae, 72 bpm, deep bass, sparse drums, skank guitar, heavy reverb and delay, echo effects, spacey atmosphere, minimalist groove, instrumental focus")]])],
      .jobj [
        ("name", .js "Custom"),
        ("presets", .jarr [])]])]

/- Python dict lookup on a JSON object: first binding wins (a parsed JSON
   object has unique keys anyway). -/
def jGet? (j : JVal) (key : String) : Option JVal :=
  match j with
  | .jobj kvs => kvs.lookup key
  | _ => none

/- Python dict.get(key, dflt). -/
def jGetD (j : JVal) (key : String) (d : JVal) : JVal :=
  (jGet? j key).getD d

/- Iterating a JSON array; the shells only iterate values that are lists. -/
def asArr (j : JVal) : List JVal :=
  match j with
  | .jarr xs => xs
  | _ => []

/- The catalog marker test of PresetManager.load:
   isinstance(self.data, dict) and "genres" in self.data. -/
def hasGenresKey (j : JVal) : Bool :=
  match j with
  | .jobj kvs => kvs.any (fun kv => kv.1 == "genres")
  | _ => false

/- State of the preset file: absent, unparsable, or parsed content.
   Writing serializes the in-memory value with json.dumps and parsing it
   back yields the same value, so a written file is modeled as parsed
   content. -/
inductive PresetFile where
  | absent
  | corrupt
  | content (j : JVal)

/- PresetManager.load (identical in heartmula.py lines 249-260 and
   heartmula_gradio.py lines 213-224): an existing file that parses into a
   dict containing "genres" is returned verbatim and the file is left
   untouched; in every other case (missing file, parse error - caught and
   ignored - or missing marker) the built-in defaults are stored, saved to
   the file, and returned. -/
def pmLoad (st : PresetFile) : JVal × PresetFile :=
  match st with
  | .content j =>
    if hasGenresKey j then (j, .content j)
    else (default_presets, .content default_presets)
  | .absent => (default_presets, .content default_presets)
  | .corrupt => (default_presets, .content default_presets)

/- heartmula_gradio.py lines 235-240, PresetManager.get_presets_for_genre:
   scan the "genres" list for the first genre dict whose "name" equals the
   requested name and return its "presets" list; an empty list when no
   genre matches.  On the well-formed catalogs reached by the shells every
   genre dict has a "name" key; a missing key would raise KeyError in
   Python and is modeled as a non-match. -/
def findGenre (genre_name : String) : List JVal → List JVal
  | [] => []
  | g :: gs =>
    match jGet? g "name" with
    | some (.js s) => if s == genre_name then asArr (jGetD g "presets" (.jarr [])) else findGenre genre_name gs
    | _ => findGenre genre_name gs

def get_presets_for_genre (data : JVal) (genre_name : String) : List JVal :=
  findGenre genre_name (asArr (jGetD data "genres" (.jarr [])))


/- Filesystem and path model.  pathlib.Path values are rendered as POSIX
   strings: the / operator appends "/", and a path is absolute when it
   starts with "/".  The filesystem is the finite list of existing paths;
   Path.exists() is membership. -/

def joinPath (a b : String) : String := a ++ "/" ++ b

def isAbsolutePath (p : String) : Bool :=
  match p.data with
  | '/' :: _ => true
  | _ => false

def resolveUnder (root p : String) : String :=
  if isAbsolutePath p then p else joinPath root p

def pexists (fs : List String) (p : String) : Bool := fs.contains p

/- The four required sub-paths of the model directory. -/
def requiredModelFiles (model_dir : String) : List String :=
  [joinPath model_dir "HeartCodec-oss",
   joinPath model_dir "HeartMuLa-oss-3B",
   joinPath model_dir "gen_config.json",
   joinPath model_dir "tokenizer.json"]

def genScriptPath (root : String) : String :=
  joinPath (joinPath root "examples") "run_music_generation.py"

/- validate_installation (heartmula.py lines 923-952; heartmula_gradio.py
   lines 247-276; the two are identical up to variable names): resolve the
   stripped model path against the root, fail if the directory is missing,
   then collect every missing required sub-path and fail listing all of
   them joined by newlines, then fail if the generation script is missing,
   else succeed with an empty message. -/
def validate_installation (fs : List String) (root mp_text : String) : Bool × String :=
  let model_dir := resolveUnder root (pyStrip mp_text)
  if !(pexists fs model_dir) then
    (false, "Model directory not found: " ++ model_dir)
  else
    let missing := (requiredModelFiles model_dir).filter (fun p => !(pexists fs p))
    if missing ≠ [] then
      (false, "Missing model files:
" ++ pyJoinStrings "
" missing)
    else
      if !(pexists fs (genScriptPath root)) then
        (false, "Generation script not found: " ++ genScriptPath root
          ++ "

Expected location: examples/run_music_generation.py")
      else (true, "")

/- Output-name probe (heartmula.py lines 977-985, heartmula_gradio.py lines
   312-319, identical): the candidate heartmula_<ts>.mp3, then
   heartmula_<ts>_1.mp3, heartmula_<ts>_2.mp3, ... until one does not
   exist.  The Python while loop is unbounded; the directory is finite, so
   fs.length + 2 iterations provably reach a free name (the fuel never
   runs out - see the C6 theorem). -/
def outputBaseName (ts : String) : String := "heartmula_" ++ ts ++ ".mp3"

def outputSuffixName (ts : String) (k : Nat) : String :=
  "heartmula_" ++ ts ++ "_" ++ natRepr k ++ ".mp3"

def probeLoop (mem : String → Bool) (ts : String) : Nat → String → Nat → String
  | 0, fname, _ => fname
  | fuel + 1, fname, counter =>
    if mem fname then probeLoop mem ts fuel (outputSuffixName ts counter) (counter + 1)
    else fname

def chooseOutputName (fs : List String) (out_dir ts : String) : String :=
  probeLoop (fun name => pexists fs (joinPath out_dir name)) ts (fs.length + 2)
    (outputBaseName ts) 1

/- Environment of one generation attempt: the filesystem, the root
   directory (root_dir()), sys.executable, and the timestamp string
   datetime.now().strftime("%Y%m%d_%H%M%S"). -/
structure Env where
  fs : List String
  root : String
  python_exe : String
  timestamp : String

/- The desktop form values feeding generate_music.  The QTimeEdit duration
   is its total number of seconds; time_to_ms renders it as
   duration_sec * 1000 given that time_to_ms(t) is
   (hour*3600 + minute*60 + second) * 1000. -/
structure DesktopRequest where
  model_path : String
  version : String
  tags : String
  lyrics : String
  duration_sec : Nat
  topk : Nat
  temperature : PyFloat
  cfg_scale : PyFloat
  output_dir : String

/- Observable outcome of the desktop generate_music up to spawning the
   QProcess: the argument vector passed to QProcess.start (python_exe
   followed by its arguments), the two scratch files written, and the
   recorded current_output_file. -/
structure DesktopGen where
  spawned : Option (List String)
  lyricsFileContent : Option String
  tagsFileContent : Option String
  outputFile : Option String

/- Python: Path(self.output_dir.text().strip() or "output"), resolved
   against root when relative. -/
def chosenOutputDir (root od_text : String) : String :=
  let od := pyStrip od_text
  resolveUnder root (if od = "" then "output" else od)

/- The collision-free output path of one attempt. -/
def chosenOutputFile (env : Env) (od_text : String) : String :=
  joinPath (chosenOutputDir env.root od_text)
    (chooseOutputName env.fs (chosenOutputDir env.root od_text) env.timestamp)

/- The --save_path= value of the browser shell: the output path relative to
   root, prefixed with ".\\" (Path.relative_to succeeds exactly when the
   output file lies under root, rendered as the prefix root ++ "/");
   otherwise the fallback ".\\output\\<name>". -/
def gradioSavePathForCli (env : Env) (od_text : String) : String :=
  let out_dir := chosenOutputDir env.root od_text
  let fname := chooseOutputName env.fs out_dir env.timestamp
  let output_file := joinPath out_dir fname
  let rootSlash := (env.root ++ "/").data
  if rootSlash.isPrefixOf output_file.data
  then ".\\" ++ String.mk (output_file.data.drop rootSlash.length)
  else ".\\output\\" ++ fname

/- heartmula.py lines 954-1036, generate_music: validate (no process and no
   file writes on failure), compute the collision-free output path, write
   lyrics.txt (raw text plus newline) and tags.txt (text stripped plus
   newline) under presets/setsave/_mula_tmp, build the command line and
   start the process, recording the output path. -/
def desktop_generate (env : Env) (req : DesktopRequest) : DesktopGen :=
  let v := validate_installation env.fs env.root req.model_path
  if v.1 = false then
    { spawned := none, lyricsFileContent := none, tagsFileContent := none, outputFile := none }
  else
    let model_dir := resolveUnder env.root (pyStrip req.model_path)
    let output_file := chosenOutputFile env req.output_dir
    let temp_dir := joinPath (joinPath (joinPath env.root "presets") "setsave") "_mula_tmp"
    { spawned := some [env.python_exe, genScriptPath env.root,
        "--model_path=" ++ model_dir,
        "--version=" ++ req.version,
        "--lyrics=" ++ joinPath temp_dir "lyrics.txt",
        "--tags=" ++ joinPath temp_dir "tags.txt",
        "--save_path=" ++ output_file,
        "--max_audio_length_ms=" ++ natRepr (req.duration_sec * 1000),
        "--topk=" ++ natRepr req.topk,
        "--temperature=" ++ req.temperature.repr,
        "--cfg_scale=" ++ req.cfg_scale.repr],
      lyricsFileContent := some (req.lyrics ++ "
"),
      tagsFileContent := some (pyStrip req.tags ++ "
"),
      outputFile := some output_file }

/- The browser form values feeding generate_music. -/
structure GradioRequest where
  model_path : String
  version : String
  tags : String
  lyrics : String
  max_length_sec : Nat
  topk : Nat
  temperature : PyFloat
  cfg_scale : PyFloat
  output_dir : String

/- Observable outcome of the browser generate_music: the subprocess argv,
   the two files written under assets/, the computed output path, and the
   audio component of the returned pair. -/
structure GradioGen where
  spawned : Option (List String)
  lyricsFileContent : Option String
  tagsFileContent : Option String
  outputFile : Option String
  audio : Option String

/- heartmula_gradio.py lines 279-421, generate_music.  rc is the exit code
   of the spawned process and outExistsAfter whether the computed output
   file exists once the process has finished (the function re-checks it).
   A Popen failure (the except branch) also returns None audio; it is not
   modeled separately since no claim distinguishes it.  Path.relative_to
   succeeds exactly when the output file lies under root, rendered here as
   the string prefix root ++ "/"; f".\\{rel}" prepends ".\\". -/
def gradio_generate (env : Env) (req : GradioRequest) (rc : Int) (outExistsAfter : Bool) :
    GradioGen :=
  let v := validate_installation env.fs env.root req.model_path
  if v.1 = false then
    { spawned := none, lyricsFileContent := none, tagsFileContent := none,
      outputFile := none, audio := none }
  else
    let output_file := chosenOutputFile env req.output_dir
    let formatted_tags := format_tags_for_file req.tags
    let output_path_for_cli := gradioSavePathForCli env req.output_dir
    { spawned := some [env.python_exe, ".\\examples\\run_music_generation.py",
        "--model_path=.\\ckpt",
        "--version=" ++ req.version,
        "--lyrics=.\\assets\\lyrics.txt",
        "--tags=.\\assets\\tags.txt",
        "--save_path=" ++ output_path_for_cli,
        "--max_audio_length_ms=" ++ natRepr (req.max_length_sec * 1000),
        "--topk=" ++ natRepr req.topk,
        "--temperature=" ++ req.temperature.repr,
        "--cfg_scale=" ++ req.cfg_scale.repr],
      lyricsFileContent := some (req.lyrics ++ "
"),
      tagsFileContent := some (formatted_tags ++ "
"),
      outputFile := some output_file,
      audio := if rc = 0 then (if outExistsAfter then some output_file else none) else none }

/- Desktop UI state touched by on_process_finished. -/
structure DesktopUi where
  current_output_file : Option String
  play_enabled : Bool
  generate_enabled : Bool
  stop_enabled : Bool

/- heartmula.py lines 1062-1102, on_process_finished: re-enable Generate,
   disable Stop; on exit code zero enable Play when the recorded output
   file exists; on nonzero exit clear the recorded output file.  Dialog
   boxes, logging and the auto-open side effect carry no state. -/
def on_process_finished (fsAfter : List String) (st : DesktopUi) (exit_code : Int) :
    DesktopUi :=
  let st1 := { st with generate_enabled := true, stop_enabled := false }
  if exit_code = 0 then
    { st1 with play_enabled :=
        if (match st1.current_output_file with
            | some f => pexists fsAfter f
            | none => false) = true then true else st1.play_enabled }
  else
    { st1 with current_output_file := none }

/- Properties of the output-name probe. -/

theorem pexists_iff_mem {fs : List String} {p : String} : pexists fs p = true ↔ p ∈ fs := by
  unfold pexists
  exact List.elem_iff

theorem natDigits_ne_nil (n : Nat) : natDigits n ≠ [] := by
  rw [natDigits]
  by_cases h10 : n < 10
  · simp [natDigitsAux, h10]
  · simp [natDigitsAux, h10]

theorem joinPath_right_inj {d a b : String} (h : joinPath d a = joinPath d b) : a = b := by
  unfold joinPath at h
  have hd := congrArg String.data h
  simp only [String.data_append] at hd
  exact congrArg String.mk (List.append_cancel_left hd)

theorem outputSuffixName_injective (ts : String) :
    Function.Injective (outputSuffixName ts) := by
  intro j k h
  unfold outputSuffixName at h
  have hd := congrArg String.data h
  simp only [String.data_append] at hd
  have h2 : (natRepr j).data = (natRepr k).data :=
    List.append_cancel_left (List.append_cancel_right hd)
  exact natRepr_injective (congrArg String.mk h2)

theorem outputBaseName_ne_suffix (ts : String) (k : Nat) :
    outputBaseName ts ≠ outputSuffixName ts k := by
  intro h
  unfold outputBaseName outputSuffixName at h
  have hd := congrArg (fun s => s.data.length) h
  simp only [String.data_append, List.length_append] at hd
  have hk : (natRepr k).data.length ≠ 0 := by
    intro h0
    exact natDigits_ne_nil k (List.length_eq_zero.mp h0)
  have hus : ("_" : String).data.length = 1 := rfl
  omega

/- If some candidate within the fuel budget is free, the probe returns a
   free name. -/
theorem probeLoop_not_mem (mem : String → Bool) (ts : String) :
    ∀ (fuel : Nat) (fname : String) (counter : Nat),
      (mem fname = false ∨
        ∃ k, counter ≤ k ∧ k + 1 < counter + fuel ∧ mem (outputSuffixName ts k) = false) →
      mem (probeLoop mem ts fuel fname counter) = false := by
  intro fuel
  induction fuel with
  | zero =>
    intro fname counter h
    rcases h with h | ⟨k, h1, h2, h3⟩
    · exact h
    · omega
  | succ fuel ih =>
    intro fname counter h
    cases hm : mem fname with
    | false =>
      have hstep : probeLoop mem ts (fuel + 1) fname counter =
          if mem fname then probeLoop mem ts fuel (outputSuffixName ts counter) (counter + 1)
          else fname := rfl
      rw [hstep, hm]
      simp only [Bool.false_eq_true, if_false]
      exact hm
    | true =>
      have hk : ∃ k, counter ≤ k ∧ k + 1 < counter + (fuel + 1) ∧
          mem (outputSuffixName ts k) = false := by
        rcases h with h | h
        · rw [hm] at h
          exact absurd h (by simp)
        · exact h
      obtain ⟨k, h1, h2, h3⟩ := hk
      simp only [probeLoop, hm, if_true]
      apply ih
      by_cases hke : k = counter
      · left
        rw [← hke]
        exact h3
      · right
        exact ⟨k, by omega, by omega, h3⟩

/- The probe returns the first free suffixed candidate. -/
theorem probeLoop_eq_suffix (mem : String → Bool) (ts : String) :
    ∀ (fuel counter k : Nat) (fname : String),
      mem fname = true → counter ≤ k →
      (∀ j, counter ≤ j → j < k → mem (outputSuffixName ts j) = true) →
      mem (outputSuffixName ts k) = false →
      k + 1 < counter + fuel →
      probeLoop mem ts fuel fname counter = outputSuffixName ts k := by
  intro fuel
  induction fuel with
  | zero =>
    intro counter k fname _ h2 _ _ h5
    omega
  | succ fuel ih =>
    intro counter k fname h1 h2 h3 h4 h5
    simp only [probeLoop, h1, if_true]
    by_cases hck : counter = k
    · subst hck
      cases fuel with
      | zero => omega
      | succ fuel' =>
        simp only [probeLoop, h4, Bool.false_eq_true, if_false]
    · refine ih (counter + 1) k (outputSuffixName ts counter)
        (h3 counter (Nat.le_refl counter) (by omega)) (by omega)
        (fun j hj1 hj2 => h3 j (by omega) hj2) h4 (by omega)

/- Pigeonhole: among the first fs.length + 1 suffixed candidates at least
   one path is free. -/
theorem exists_free_suffix (fs : List String) (out_dir ts : String) :
    ∃ k, 1 ≤ k ∧ k ≤ fs.length + 1 ∧
      pexists fs (joinPath out_dir (outputSuffixName ts k)) = false := by
  by_contra hcon
  push_neg at hcon
  have hmem : ∀ k ∈ Finset.Icc 1 (fs.length + 1),
      joinPath out_dir (outputSuffixName ts k) ∈ fs.toFinset := by
    intro k hk
    rw [Finset.mem_Icc] at hk
    have hne := hcon k hk.1 hk.2
    rw [List.mem_toFinset, ← pexists_iff_mem]
    cases hx : pexists fs (joinPath out_dir (outputSuffixName ts k)) with
    | false => exact absurd hx hne
    | true => rfl
  have hinj : Set.InjOn (fun k => joinPath out_dir (outputSuffixName ts k))
      (Finset.Icc 1 (fs.length + 1)) := by
    intro x _ y _ hxy
    exact outputSuffixName_injective ts (joinPath_right_inj hxy)
  have hcard := Finset.card_le_card_of_injOn _ hmem hinj
  rw [Nat.card_Icc] at hcard
  have hle := List.toFinset_card_le fs
  omega

/- ===================== Claim theorems ===================== -/

/-- C1: the claim says both shells' MulaSettings.load silently return the
default record when the file is absent or unparsable.  The browser shell
does; the desktop shell returns defaults only for an absent file, while its
except handler executes the undefined name sMulaSettings, so a parse
failure raises NameError to the caller (modeled as Except.error). -/
theorem c1_settings_load_fallback :
    MulaSettingsD.load .bad = .error () ∧
    MulaSettingsD.load .absent = .ok ({} : MulaSettingsD) ∧
    MulaSettingsG.load .bad = ({} : MulaSettingsG) ∧
    MulaSettingsG.load .absent = ({} : MulaSettingsG) :=
  ⟨rfl, rfl, rfl, rfl⟩

/-- C4 counterexample: a settings record whose model_path matches the legacy
pattern does not round-trip: saving and loading rewrites it to "ckpt". -/
theorem c4_counterexample :
    MulaSettingsG.load (.obj (MulaSettingsG.save
        { model_path := "models/HeartMuLa" })) ≠
      ({ model_path := "models/HeartMuLa" } : MulaSettingsG) := by
  decide

/-- C4 amended: load after save is the identity on every settings record
whose model_path does not match the legacy pattern; on a legacy model_path
the round trip rewrites exactly that field to "ckpt".  This holds in both
shells (the desktop load succeeds here, as save always produces a parsable
object). -/
theorem c4_save_load_round_trip :
    (∀ s : MulaSettingsG, MulaSettingsG.load (.obj (MulaSettingsG.save s)) =
      (if legacyModelPath s.model_path then { s with model_path := "ckpt" } else s)) ∧
    (∀ s : MulaSettingsD, MulaSettingsD.load (.obj (MulaSettingsD.save s)) =
      .ok (if legacyModelPath s.model_path then { s with model_path := "ckpt" } else s)) := by
  constructor
  · intro s
    by_cases h : legacyModelPath s.model_path
    · simp [MulaSettingsG.load, MulaSettingsG.save, migrateG, h]
    · simp [MulaSettingsG.load, MulaSettingsG.save, migrateG, h]
  · intro s
    by_cases h : legacyModelPath s.model_path
    · simp [MulaSettingsD.load, MulaSettingsD.save, migrateD, h]
    · simp [MulaSettingsD.load, MulaSettingsD.save, migrateD, h]

/-- C5 counterexample: the first EDM preset's name in the browser shell's
default catalog is the source literal "House ‚Äì Club", which is not the string
"House – Club" stated by the claim (the source file stores a mojibake
rendering of the en dash). -/
theorem c5_counterexample :
    (get_presets_for_genre default_presets "EDM").head?.bind (fun p => jGet? p "name")
        = some (.js "House ‚Äì Club") ∧
    ("House ‚Äì Club" : String) ≠ "House – Club" := by
  refine ⟨rfl, ?_⟩
  decide

/-- C5 amended: on the built-in default catalog, get_presets_for_genre "EDM"
returns a non-empty ordered list whose first entry's name is the source
literal "House ‚Äì Club" (the browser shell's spelling of "House – Club"). -/
theorem c5_edm_first_preset :
    (∃ p rest, get_presets_for_genre default_presets "EDM" = p :: rest) ∧
    (get_presets_for_genre default_presets "EDM").head?.bind (fun p => jGet? p "name")
        = some (.js "House ‚Äì Club") :=
  ⟨⟨_, _, rfl⟩, rfl⟩

/-- C10: format_tags_for_file is idempotent - re-formatting an
already-formatted tags string never changes it. -/
theorem c10_format_tags_idempotent (s : String) :
    format_tags_for_file (format_tags_for_file s) = format_tags_for_file s :=
  format_tags_idem_aux s

/-- C7: PresetManager.load returns a parsed object with the "genres" marker
verbatim, leaving the file unchanged; in every other case (absent file,
parse error, marker missing) it writes the built-in default catalog to the
file and returns it; hence after a first load the file holds exactly what
load returned, and a second load returns the same data and leaves the same
file. -/
theorem c7_preset_manager_load :
    (∀ j, hasGenresKey j = true → pmLoad (.content j) = (j, .content j)) ∧
    pmLoad .absent = (default_presets, .content default_presets) ∧
    pmLoad .corrupt = (default_presets, .content default_presets) ∧
    (∀ j, hasGenresKey j = false →
      pmLoad (.content j) = (default_presets, .content default_presets)) ∧
    (∀ st, (pmLoad st).2 = .content (pmLoad st).1 ∧ pmLoad ((pmLoad st).2) = pmLoad st) := by
  have hdef : hasGenresKey default_presets = true := rfl
  refine ⟨?_, rfl, rfl, ?_, ?_⟩
  · intro j h
    simp [pmLoad, h]
  · intro j h
    simp [pmLoad, h]
  · intro st
    cases st with
    | absent => exact ⟨rfl, by simp [pmLoad, hdef]⟩
    | corrupt => exact ⟨rfl, by simp [pmLoad, hdef]⟩
    | content j =>
      by_cases h : hasGenresKey j = true
      · constructor
        · simp [pmLoad, h]
        · simp [pmLoad, h]
      · rw [Bool.not_eq_true] at h
        constructor
        · simp [pmLoad, h]
        · simp [pmLoad, h, hdef]

/-- C7 witness: a concrete object carrying the marker is returned verbatim,
a concrete marker-less object is replaced by the defaults and the defaults
are persisted, and a second load after a first load from an absent file
returns the same data and file. -/
theorem c7_preset_manager_load_witness :
    pmLoad (.content (.jobj [("genres", .jarr [])]))
        = (.jobj [("genres", .jarr [])], .content (.jobj [("genres", .jarr [])])) ∧
    pmLoad (.content (.jobj [("version", .ji 1)]))
        = (default_presets, .content default_presets) ∧
    pmLoad ((pmLoad .absent).2) = pmLoad .absent :=
  ⟨c7_preset_manager_load.1 (.jobj [("genres", .jarr [])]) rfl,
   c7_preset_manager_load.2.2.2.1 (.jobj [("version", .ji 1)]) rfl,
   (c7_preset_manager_load.2.2.2.2 .absent).2⟩

/-- C9: a nonzero exit code clears the recorded output path in the desktop
shell (current_output_file becomes None in on_process_finished), and the
browser shell returns None as the audio file path whenever the process exit
code is nonzero, so a subsequent play action cannot reference the path
computed for the failed invocation. -/
theorem c9_nonzero_exit_clears_output :
    (∀ (fsAfter : List String) (st : DesktopUi) (code : Int), code ≠ 0 →
      (on_process_finished fsAfter st code).current_output_file = none) ∧
    (∀ (env : Env) (req : GradioRequest) (rc : Int) (ex : Bool), rc ≠ 0 →
      (gradio_generate env req rc ex).audio = none) := by
  constructor
  · intro fsAfter st code h
    simp [on_process_finished, h]
  · intro env req rc ex h
    by_cases hv : (validate_installation env.fs env.root req.model_path).1 = false
    · simp [gradio_generate, hv]
    · simp [gradio_generate, hv, h]

/-- C9 witness: with exit code 1 the desktop shell forgets a previously
recorded output file, and the browser shell returns no audio path. -/
theorem c9_nonzero_exit_clears_output_witness :
    (on_process_finished []
        { current_output_file := some "/r/output/old.mp3",
          play_enabled := true, generate_enabled := false, stop_enabled := true }
        1).current_output_file = none ∧
    (gradio_generate
        { fs := [], root := "/r", python_exe := "python", timestamp := "20250101_120000" }
        { model_path := "m", version := "3B", tags := "", lyrics := "",
          max_length_sec := 240, topk := 50, temperature := ⟨"1.0"⟩,
          cfg_scale := ⟨"1.5"⟩, output_dir := "output" }
        1 true).audio = none :=
  ⟨c9_nonzero_exit_clears_output.1 [] _ 1 (by decide),
   c9_nonzero_exit_clears_output.2 _ _ 1 true (by decide)⟩

/- A concrete filesystem on which validation succeeds: the model directory
   "/r/m" with all four required sub-paths, and the generation script. -/
def sampleEnv : Env :=
  { fs := ["/r/m", "/r/m/HeartCodec-oss", "/r/m/HeartMuLa-oss-3B",
      "/r/m/gen_config.json", "/r/m/tokenizer.json",
      "/r/examples/run_music_generation.py"],
    root := "/r", python_exe := "python", timestamp := "20250101_120000" }

/-- C3 counterexample: with style tags "Club House" the desktop shell writes
"Club House\n" to its tags file - the raw text stripped plus a newline -
which differs from the lower-cased comma-normalized content the claim
states for every shell. -/
theorem c3_counterexample :
    (desktop_generate sampleEnv
        { model_path := "m", version := "3B", tags := "Club House", lyrics := "L",
          duration_sec := 240, topk := 50, temperature := ⟨"1.0"⟩,
          cfg_scale := ⟨"1.5"⟩, output_dir := "output" }).tagsFileContent
      = some "Club House\n" ∧
    specFormatTags "Club House" ++ "\n" ≠ "Club House\n" := by
  constructor
  · decide
  · decide

/-- C3 amended: the browser shell's tags file holds exactly the input
lower-cased, split on commas, whitespace stripped around each tag, re-joined
with commas, plus one trailing newline; the desktop shell instead writes the
raw tags text stripped of surrounding whitespace plus one trailing
newline. -/
theorem c3_tags_file_content :
    (∀ (env : Env) (req : GradioRequest) (rc : Int) (ex : Bool),
      (validate_installation env.fs env.root req.model_path).1 = true →
      (gradio_generate env req rc ex).tagsFileContent
        = some (specFormatTags req.tags ++ "\n")) ∧
    (∀ (env : Env) (req : DesktopRequest),
      (validate_installation env.fs env.root req.model_path).1 = true →
      (desktop_generate env req).tagsFileContent = some (pyStrip req.tags ++ "\n")) := by
  constructor
  · intro env req rc ex h
    simp only [gradio_generate, h]
    rw [format_tags_eq_spec]
    simp
  · intro env req h
    simp [desktop_generate, h]

/-- C3 witness: on the concrete filesystem where validation passes, the
browser shell normalizes "Club House, 128 BPM" to "club house,128 bpm\n" in
its tags file and the desktop shell writes " mix " as "mix\n". -/
theorem c3_tags_file_content_witness :
    (gradio_generate sampleEnv
        { model_path := "m", version := "3B", tags := "Club House, 128 BPM",
          lyrics := "", max_length_sec := 240, topk := 50, temperature := ⟨"1.0"⟩,
          cfg_scale := ⟨"1.5"⟩, output_dir := "output" } 0 true).tagsFileContent
      = some (specFormatTags "Club House, 128 BPM" ++ "\n") ∧
    (desktop_generate sampleEnv
        { model_path := "m", version := "3B", tags := " mix ", lyrics := "",
          duration_sec := 240, topk := 50, temperature := ⟨"1.0"⟩,
          cfg_scale := ⟨"1.5"⟩, output_dir := "output" }).tagsFileContent
      = some (pyStrip " mix " ++ "\n") :=
  ⟨c3_tags_file_content.1 sampleEnv _ 0 true (by decide),
   c3_tags_file_content.2 sampleEnv _ (by decide)⟩

/-- C8: when the resolved model directory exists but some of the four
required sub-paths are missing, validate_installation fails and its message
contains every missing sub-path (it lists all of them, not just the first);
and whenever validation fails, neither shell's generate_music spawns a
process. -/
theorem c8_validator_missing_files :
    (∀ (fs : List String) (root mp : String),
      pexists fs (resolveUnder root (pyStrip mp)) = true →
      (requiredModelFiles (resolveUnder root (pyStrip mp))).any
        (fun p => !(pexists fs p)) = true →
      (validate_installation fs root mp).1 = false ∧
      (∀ p ∈ requiredModelFiles (resolveUnder root (pyStrip mp)),
        pexists fs p = false → pyIn p (validate_installation fs root mp).2 = true)) ∧
    (∀ (env : Env) (req : DesktopRequest),
      (validate_installation env.fs env.root req.model_path).1 = false →
      (desktop_generate env req).spawned = none) ∧
    (∀ (env : Env) (req : GradioRequest) (rc : Int) (ex : Bool),
      (validate_installation env.fs env.root req.model_path).1 = false →
      (gradio_generate env req rc ex).spawned = none) := by
  refine ⟨?_, ?_, ?_⟩
  · intro fs root mp hdir hany
    obtain ⟨p0, hp0, hnp0⟩ := List.any_eq_true.mp hany
    have hp0f : pexists fs p0 = false := by
      cases hx : pexists fs p0 with
      | false => rfl
      | true =>
        rw [hx] at hnp0
        exact absurd hnp0 (by decide)
    have hmem0 : p0 ∈ (requiredModelFiles (resolveUnder root (pyStrip mp))).filter
        (fun p => !(pexists fs p)) :=
      List.mem_filter.mpr ⟨hp0, by rw [hp0f]; rfl⟩
    have hne : (requiredModelFiles (resolveUnder root (pyStrip mp))).filter
        (fun p => !(pexists fs p)) ≠ [] := List.ne_nil_of_mem hmem0
    have hval : validate_installation fs root mp =
        (false, "Missing model files:\n" ++ pyJoinStrings "\n"
          ((requiredModelFiles (resolveUnder root (pyStrip mp))).filter
            (fun p => !(pexists fs p)))) := by
      simp [validate_installation, hdir, hne]
    constructor
    · rw [hval]
    · intro p hreq hpex
      have hmem : p ∈ (requiredModelFiles (resolveUnder root (pyStrip mp))).filter
          (fun q => !(pexists fs q)) :=
        List.mem_filter.mpr ⟨hreq, by rw [hpex]; rfl⟩
      rw [hval]
      exact pyIn_append_right (pyIn_pyJoinStrings_of_mem hmem "\n") _
  · intro env req h
    simp [desktop_generate, h]
  · intro env req rc ex h
    simp [gradio_generate, h]

/- sampleEnv with tokenizer.json removed: only that sub-path is missing. -/
def sampleEnvNoTokenizer : Env :=
  { fs := ["/r/m", "/r/m/HeartCodec-oss", "/r/m/HeartMuLa-oss-3B",
      "/r/m/gen_config.json", "/r/examples/run_music_generation.py"],
    root := "/r", python_exe := "python", timestamp := "20250101_120000" }

/-- C8 witness: with a model directory missing only tokenizer.json,
validation fails, the message contains the exact path
"/r/m/tokenizer.json", and neither shell spawns a process. -/
theorem c8_validator_missing_files_witness :
    (validate_installation sampleEnvNoTokenizer.fs "/r" "m").1 = false ∧
    pyIn "/r/m/tokenizer.json" (validate_installation sampleEnvNoTokenizer.fs "/r" "m").2
      = true ∧
    (desktop_generate sampleEnvNoTokenizer
        { model_path := "m", version := "3B", tags := "", lyrics := "",
          duration_sec := 240, topk := 50, temperature := ⟨"1.0"⟩,
          cfg_scale := ⟨"1.5"⟩, output_dir := "output" }).spawned = none ∧
    (gradio_generate sampleEnvNoTokenizer
        { model_path := "m", version := "3B", tags := "", lyrics := "",
          max_length_sec := 240, topk := 50, temperature := ⟨"1.0"⟩,
          cfg_scale := ⟨"1.5"⟩, output_dir := "output" } 1 false).spawned = none :=
  ⟨(c8_validator_missing_files.1 sampleEnvNoTokenizer.fs "/r" "m" (by decide) (by decide)).1,
   (c8_validator_missing_files.1 sampleEnvNoTokenizer.fs "/r" "m" (by decide) (by decide)).2
     "/r/m/tokenizer.json" (by decide) (by decide),
   c8_validator_missing_files.2.1 sampleEnvNoTokenizer _
     ((c8_validator_missing_files.1 sampleEnvNoTokenizer.fs "/r" "m" (by decide) (by decide)).1),
   c8_validator_missing_files.2.2 sampleEnvNoTokenizer _ 1 false
     ((c8_validator_missing_files.1 sampleEnvNoTokenizer.fs "/r" "m" (by decide) (by decide)).1)⟩

/- A concrete browser-shell request whose model path is the relative "m"
   (resolved against the root as "/r/m"). -/
def c2Request : GradioRequest :=
  { model_path := "m", version := "3B", tags := "", lyrics := "",
    max_length_sec := 240, topk := 50, temperature := ⟨"1.0"⟩,
    cfg_scale := ⟨"1.5"⟩, output_dir := "output" }

/-- C2 counterexample: on a filesystem where validation of the request's
model path "m" succeeds, the browser shell passes the fixed literal
".\ckpt" under --model_path=, not the request's model path: no element of
the argument list mentions the resolved request path "/r/m" at all. -/
theorem c2_counterexample :
    (gradio_generate sampleEnv c2Request 0 true).spawned =
      some ["python", ".\\examples\\run_music_generation.py",
        "--model_path=.\\ckpt", "--version=3B",
        "--lyrics=.\\assets\\lyrics.txt", "--tags=.\\assets\\tags.txt",
        "--save_path=.\\output/heartmula_20250101_120000.mp3",
        "--max_audio_length_ms=240000", "--topk=50", "--temperature=1.0",
        "--cfg_scale=1.5"] ∧
    ("--model_path=.\\ckpt" : String)
      ≠ "--model_path=" ++ resolveUnder sampleEnv.root (pyStrip c2Request.model_path) ∧
    ((gradio_generate sampleEnv c2Request 0 true).spawned.getD []).all
      (fun a => !(pyIn "/r/m" a)) = true := by
  refine ⟨by decide, by decide, by decide⟩

/-- C2 amended: for every request passing validation, the desktop shell's
argument list encodes exactly the request's values (the model path resolved
against the root, the version, the two scratch-file paths it wrote, the
computed save path, the duration in milliseconds, topk, temperature and
cfg_scale); the browser shell encodes the version, duration in
milliseconds, topk, temperature and cfg_scale from the request, but passes
the fixed relative literals .\ckpt, .\assets\lyrics.txt and
.\assets\tags.txt for the model path and scratch files, and the computed
save path in .\-prefixed root-relative form. -/
theorem c2_cmdline_encoding :
    (∀ (env : Env) (req : DesktopRequest),
      (validate_installation env.fs env.root req.model_path).1 = true →
      (desktop_generate env req).spawned = some
        [env.python_exe, genScriptPath env.root,
         "--model_path=" ++ resolveUnder env.root (pyStrip req.model_path),
         "--version=" ++ req.version,
         "--lyrics=" ++ joinPath
           (joinPath (joinPath (joinPath env.root "presets") "setsave") "_mula_tmp")
           "lyrics.txt",
         "--tags=" ++ joinPath
           (joinPath (joinPath (joinPath env.root "presets") "setsave") "_mula_tmp")
           "tags.txt",
         "--save_path=" ++ chosenOutputFile env req.output_dir,
         "--max_audio_length_ms=" ++ natRepr (req.duration_sec * 1000),
         "--topk=" ++ natRepr req.topk,
         "--temperature=" ++ req.temperature.repr,
         "--cfg_scale=" ++ req.cfg_scale.repr]) ∧
    (∀ (env : Env) (req : GradioRequest) (rc : Int) (ex : Bool),
      (validate_installation env.fs env.root req.model_path).1 = true →
      (gradio_generate env req rc ex).spawned = some
        [env.python_exe, ".\\examples\\run_music_generation.py",
         "--model_path=.\\ckpt",
         "--version=" ++ req.version,
         "--lyrics=.\\assets\\lyrics.txt",
         "--tags=.\\assets\\tags.txt",
         "--save_path=" ++ gradioSavePathForCli env req.output_dir,
         "--max_audio_length_ms=" ++ natRepr (req.max_length_sec * 1000),
         "--topk=" ++ natRepr req.topk,
         "--temperature=" ++ req.temperature.repr,
         "--cfg_scale=" ++ req.cfg_scale.repr]) := by
  constructor
  · intro env req h
    simp [desktop_generate, h]
  · intro env req rc ex h
    simp [gradio_generate, h]

/-- C2 witness: both argument lists at a concrete validated request. -/
theorem c2_cmdline_encoding_witness :
    (desktop_generate sampleEnv
        { model_path := "m", version := "3B", tags := "t", lyrics := "l",
          duration_sec := 240, topk := 50, temperature := ⟨"1.0"⟩,
          cfg_scale := ⟨"1.5"⟩, output_dir := "output" }).spawned = some
      ["python", genScriptPath "/r",
       "--model_path=" ++ resolveUnder "/r" (pyStrip "m"),
       "--version=3B",
       "--lyrics=" ++ joinPath
         (joinPath (joinPath (joinPath "/r" "presets") "setsave") "_mula_tmp")
         "lyrics.txt",
       "--tags=" ++ joinPath
         (joinPath (joinPath (joinPath "/r" "presets") "setsave") "_mula_tmp")
         "tags.txt",
       "--save_path=" ++ chosenOutputFile sampleEnv "output",
       "--max_audio_length_ms=" ++ natRepr (240 * 1000),
       "--topk=" ++ natRepr 50, "--temperature=1.0", "--cfg_scale=1.5"] ∧
    (gradio_generate sampleEnv c2Request 0 true).spawned = some
      ["python", ".\\examples\\run_music_generation.py",
       "--model_path=.\\ckpt", "--version=3B",
       "--lyrics=.\\assets\\lyrics.txt", "--tags=.\\assets\\tags.txt",
       "--save_path=" ++ gradioSavePathForCli sampleEnv "output",
       "--max_audio_length_ms=" ++ natRepr (240 * 1000),
       "--topk=" ++ natRepr 50, "--temperature=1.0", "--cfg_scale=1.5"] :=
  ⟨c2_cmdline_encoding.1 sampleEnv _ (by decide),
   c2_cmdline_encoding.2 sampleEnv c2Request 0 true (by decide)⟩

/-- C6: the computed output file name is heartmula_<ts>.mp3 when that path
is free; when the base name is taken, the chosen name is the first free
heartmula_<ts>_k.mp3 in the order k = 1, 2, ...; and the chosen name never
names an existing file. -/
theorem c6_collision_free_output_name (fs : List String) (out_dir ts : String) :
    (pexists fs (joinPath out_dir (outputBaseName ts)) = false →
      chooseOutputName fs out_dir ts = outputBaseName ts) ∧
    (∀ k, 1 ≤ k →
      pexists fs (joinPath out_dir (outputBaseName ts)) = true →
      (∀ j, 1 ≤ j → j < k →
        pexists fs (joinPath out_dir (outputSuffixName ts j)) = true) →
      pexists fs (joinPath out_dir (outputSuffixName ts k)) = false →
      chooseOutputName fs out_dir ts = outputSuffixName ts k) ∧
    pexists fs (joinPath out_dir (chooseOutputName fs out_dir ts)) = false := by
  refine ⟨?_, ?_, ?_⟩
  · intro h
    have hstep : chooseOutputName fs out_dir ts =
        if pexists fs (joinPath out_dir (outputBaseName ts))
        then probeLoop (fun name => pexists fs (joinPath out_dir name)) ts (fs.length + 1)
          (outputSuffixName ts 1) 2
        else outputBaseName ts := rfl
    rw [hstep, h]
    simp
  · intro k hk1 hbase hprev hfree
    have hbound : k ≤ fs.length + 1 := by
      by_contra hcon
      push_neg at hcon
      have hmemt : ∀ j ∈ Finset.range k,
          (if j = 0 then joinPath out_dir (outputBaseName ts)
           else joinPath out_dir (outputSuffixName ts j)) ∈ fs.toFinset := by
        intro j hj
        rw [Finset.mem_range] at hj
        by_cases hj0 : j = 0
        · rw [if_pos hj0, List.mem_toFinset, ← pexists_iff_mem]
          exact hbase
        · rw [if_neg hj0, List.mem_toFinset, ← pexists_iff_mem]
          exact hprev j (by omega) hj
      have hinj : Set.InjOn
          (fun j => if j = 0 then joinPath out_dir (outputBaseName ts)
            else joinPath out_dir (outputSuffixName ts j))
          (Finset.range k) := by
        intro x _ y _ hxy
        dsimp only at hxy
        by_cases hx0 : x = 0 <;> by_cases hy0 : y = 0
        · omega
        · rw [if_pos hx0, if_neg hy0] at hxy
          exact absurd (joinPath_right_inj hxy) (outputBaseName_ne_suffix ts y)
        · rw [if_neg hx0, if_pos hy0] at hxy
          exact absurd (joinPath_right_inj hxy).symm (outputBaseName_ne_suffix ts x)
        · rw [if_neg hx0, if_neg hy0] at hxy
          exact outputSuffixName_injective ts (joinPath_right_inj hxy)
      have hcard := Finset.card_le_card_of_injOn _ hmemt hinj
      rw [Finset.card_range] at hcard
      have hle := List.toFinset_card_le fs
      omega
    exact probeLoop_eq_suffix _ ts (fs.length + 2) 1 k (outputBaseName ts) hbase hk1
      (fun j hj1 hj2 => hprev j hj1 hj2) hfree (by omega)
  · obtain ⟨k, hk1, hk2, hkfree⟩ := exists_free_suffix fs out_dir ts
    exact probeLoop_not_mem (fun name => pexists fs (joinPath out_dir name)) ts
      (fs.length + 2) (outputBaseName ts) 1 (Or.inr ⟨k, hk1, by omega, hkfree⟩)

/-- C6 witness: with heartmula_20250101_120000.mp3 already present in the
output directory and no suffixed variant present, the chosen name at that
timestamp is heartmula_20250101_120000_1.mp3, and on that same directory
state the chosen path does not name an existing file. -/
theorem c6_collision_free_output_name_witness :
    chooseOutputName ["/out/heartmula_20250101_120000.mp3"] "/out" "20250101_120000"
      = "heartmula_20250101_120000_1.mp3" ∧
    pexists ["/out/heartmula_20250101_120000.mp3"]
      (joinPath "/out"
        (chooseOutputName ["/out/heartmula_20250101_120000.mp3"] "/out" "20250101_120000"))
      = false :=
  ⟨(c6_collision_free_output_name ["/out/heartmula_20250101_120000.mp3"] "/out"
      "20250101_120000").2.1 1 (by decide) (by decide)
      (fun j hj1 hj2 => absurd hj2 (by omega)) (by decide),
   (c6_collision_free_output_name ["/out/heartmula_20250101_120000.mp3"] "/out"
      "20250101_120000").2.2⟩

end Heartlib
